import Mathlib

/-!
A shallow embedding of the `cli_bridge` crate of the ThreadSpace-Nexus
repository, together with theorems checking its natural-language
specification against the code.

The embedding covers:
* `BridgeError`, `BridgeResult`, `SubprocessConfig` (`lib.rs`),
* the process executor `spawn_subprocess` (`subprocess.rs`), modelled as a
  pure function of the observable behavior of the operating system and the
  child process (`ChildBehavior`),
* the result envelope `CapabilityResult` with its two constructors (`lib.rs`),
* the tool adapters `run_codexify` (`codexify.rs`) and `run_ritual_engine`
  (`ritual_engine.rs`),
* the manifest model `Manifest` with `save_manifest` / `load_manifest`
  (`manifest.rs`), over an executable model of `serde_json` pretty printing
  and parsing and an association-list file system.

Rust machine integers are modelled as `Nat`/`Int` with explicit wrap-around
where the code casts; `std::time::Duration` is modelled as a count of
nanoseconds; fallible Rust functions return `Except`.
-/

namespace CliBridge

/-- `std::time::Duration`, modelled as a number of nanoseconds. -/
abbrev Duration := Nat

/-- `Duration::from_secs`. -/
def Duration.fromSecs (s : Nat) : Duration := s * 1000000000

/-- `Duration::as_millis() as u64`: milliseconds, truncated to 64 bits by the
`as u64` cast in `lib.rs`. -/
def durationAsMillis (d : Duration) : Nat := (d / 1000000) % (2 ^ 64)

/-- The error enum `BridgeError` of `lib.rs` lines 15–34.  The payloads of
`Io` and `Json` are the `Display` text of the wrapped `std::io::Error` /
`serde_json::Error`. -/
inductive BridgeError where
  | io (msg : String)
  | json (msg : String)
  | timeout (duration : Duration)
  | processFailed (code : Int)
  | invalidOutput (msg : String)
  | toolNotFound (name : String)
deriving Repr, DecidableEq

/-- `BridgeResult<T>` of `lib.rs` line 36. -/
abbrev BridgeResult (T : Type) := Except BridgeError T

/-- `SubprocessConfig` of `lib.rs` lines 86–92.  The `HashMap` of extra
environment variables is modelled as an association list; the field
`logIoFlag` models the source field named `log_io`. -/
structure SubprocessConfig where
  timeout : Duration
  working_dir : Option String
  env_vars : List (String × String)
  logIoFlag : Bool
deriving Repr, DecidableEq

/-- `SubprocessConfig::default()` of `lib.rs` lines 94–103. -/
def SubprocessConfig.default : SubprocessConfig :=
  { timeout := Duration.fromSecs 30
    working_dir := none
    env_vars := []
    logIoFlag := true }

/-!
## The process executor (`subprocess.rs`)

`spawn_subprocess` performs I/O, so its embedding is a pure function of the
observable behavior of the environment for the one call: whether `spawn`
fails, whether writing the request to the child's stdin fails, whether the
child exits within `config.timeout`, whether `wait_with_output` fails, the
child's exit status, and its captured stdout/stderr.  `stdout` and `stderr`
hold the text produced by `String::from_utf8_lossy` on the captured bytes.
-/

/-- The environment's side of one `spawn_subprocess` call. `exitCode` is
`ExitStatus::code()`: `none` when the child was terminated by a signal, so
`ExitStatus::success()` is `exitCode = some 0`. -/
structure ChildBehavior where
  spawnError : Option String
  writeError : Option String
  inTime : Bool
  waitError : Option String
  exitCode : Option Int
  stdout : String
  stderr : String
deriving Repr, DecidableEq

instance instDecEqExcept {ε α : Type} [DecidableEq ε] [DecidableEq α] :
    DecidableEq (Except ε α) := fun a b =>
  match a, b with
  | .ok x, .ok y =>
    if h : x = y then isTrue (congrArg Except.ok h)
    else isFalse (fun hc => h (Except.ok.inj hc))
  | .ok _, .error _ => isFalse (fun hc => Except.noConfusion hc)
  | .error _, .ok _ => isFalse (fun hc => Except.noConfusion hc)
  | .error e, .error f =>
    if h : e = f then isTrue (congrArg Except.error h)
    else isFalse (fun hc => h (Except.error.inj hc))

/-- What one `spawn_subprocess` call produces: its return value, the lines it
logged (`debug!`/`info!`/`error!`), whether a child process was spawned, and
whether the call released the child before returning (killed it, or waited
for its exit).  `released = false` means the call returned while the spawned
child was neither killed nor reaped: `tokio::process::Child` is dropped
without `kill_on_drop`, so the child keeps running. -/
structure ExecResult (O : Type) where
  result : BridgeResult O
  log : List String
  spawned : Bool
  released : Bool
deriving Repr, DecidableEq

/-- `spawn_subprocess` of `subprocess.rs` lines 10–86.

The generic serializer and deserializer are parameters: `serInput` is the
outcome of `serde_json::to_string(input)` (line 23) and `parseO` models
`serde_json::from_str::<O>` (line 84).  Branches, in source order:
serialization failure (the `?` on line 23 yields `BridgeError::Json`), spawn
failure (line 48, `BridgeError::Io`), stdin write failure (the `?` on lines
53–54 yields `BridgeError::Io`; the call returns with the child still
running), timeout (lines 61–64: kill, then `BridgeError::Timeout` with the
configured duration), `wait_with_output` failure (line 60), non-zero exit
status (lines 70–76: `BridgeError::ProcessFailed` with
`status.code().unwrap_or(-1)`), and output parsing (lines 79–85: parse
failure hits the `?` on line 84, which converts the `serde_json::Error` into
`BridgeError::Json`). -/
def spawn_subprocess {O : Type} (command : String) (args : List String)
    (serInput : Except String String) (parseO : String → Except String O)
    (config : SubprocessConfig) (b : ChildBehavior) : ExecResult O :=
  match serInput with
  | .error e => ⟨.error (.json e), [], false, true⟩
  | .ok input_json =>
    let log1 := (if config.logIoFlag then ["Input JSON: " ++ input_json] else [])
        ++ ["Spawning subprocess: " ++ command ++ " " ++ String.intercalate " " args]
    match b.spawnError with
    | some e => ⟨.error (.io e), log1, false, true⟩
    | none =>
      match b.writeError with
      | some e => ⟨.error (.io e), log1, true, false⟩
      | none =>
        if !b.inTime then
          ⟨.error (.timeout config.timeout), log1, true, true⟩
        else
          match b.waitError with
          | some e => ⟨.error (.io e), log1, true, true⟩
          | none =>
            if b.exitCode ≠ some 0 then
              ⟨.error (.processFailed (b.exitCode.getD (-1))),
                log1 ++ ["Process failed with stderr: " ++ b.stderr], true, true⟩
            else
              let log2 := log1
                  ++ (if config.logIoFlag then ["Output JSON: " ++ b.stdout] else [])
              match parseO b.stdout with
              | .error e => ⟨.error (.json e), log2, true, true⟩
              | .ok v => ⟨.ok v, log2, true, true⟩

/-!
## The result envelope (`lib.rs` lines 38–83)
-/

/-- `ResponseMetadata` of `lib.rs` lines 47–53.  The `chrono` timestamp is
modelled as an abstract instant. -/
structure ResponseMetadata where
  tool_name : String
  duration_ms : Nat
  timestamp : Nat
  version : String
deriving Repr, DecidableEq

/-- `CapabilityResult<T>` of `lib.rs` lines 39–45. -/
structure CapabilityResult (T : Type) where
  success : Bool
  data : Option T
  error : Option String
  metadata : ResponseMetadata
deriving Repr, DecidableEq

/-- The constructor `CapabilityResult::success` of `lib.rs` lines 56–68.
`now` models `chrono::Utc::now()`. -/
def CapabilityResult.mkSuccess {T : Type} (data : T) (tool_name : String)
    (duration : Duration) (version : String) (now : Nat) : CapabilityResult T :=
  { success := true
    data := some data
    error := none
    metadata :=
      { tool_name := tool_name
        duration_ms := durationAsMillis duration
        timestamp := now
        version := version } }

/-- The constructor `CapabilityResult::error` of `lib.rs` lines 70–82. -/
def CapabilityResult.mkError {T : Type} (error : String) (tool_name : String)
    (duration : Duration) (version : String) (now : Nat) : CapabilityResult T :=
  { success := false
    data := none
    error := some error
    metadata :=
      { tool_name := tool_name
        duration_ms := durationAsMillis duration
        timestamp := now
        version := version } }

/-!
## Display text of errors

`thiserror` derives `Display` for `BridgeError` from the `#[error(...)]`
attributes of `lib.rs`; the adapters call it through `e.to_string()`.
The timeout message embeds the `Debug` rendering of `std::time::Duration`.
-/

/-- Decimal digit character: `d ↦ '0' + d`. -/
def digitChar (d : Nat) : Char := Char.ofNat (48 + d)

/-- Fueled most-significant-first decimal digit accumulator. -/
def natDigsGo : Nat → Nat → List Char → List Char
  | 0, _, acc => acc
  | fuel + 1, n, acc =>
    if n = 0 then acc else natDigsGo fuel (n / 10) (digitChar (n % 10) :: acc)

/-- Decimal digits of a natural number, most significant first. -/
def natDigs (n : Nat) : List Char :=
  if n = 0 then ['0'] else natDigsGo (n + 1) n []

/-- Fractional part for `Duration`'s `Debug` rendering: `frac` zero-padded to
`width` digits with trailing zeros trimmed, preceded by a dot; empty when
`frac` is zero. -/
def fracPart (frac : Nat) (width : Nat) : List Char :=
  if frac = 0 then []
  else
    let ds := natDigs frac
    let padded := List.replicate (width - ds.length) '0' ++ ds
    '.' :: (padded.reverse.dropWhile (fun c => c = '0')).reverse

/-- The `Debug` rendering of `std::time::Duration` (`"30s"`, `"1.5s"`,
`"250ms"`, `"3µs"`, `"7ns"`). -/
def durationDebug (d : Duration) : String :=
  let secs := d / 1000000000
  let nanos := d % 1000000000
  if secs > 0 then
    String.mk (natDigs secs ++ fracPart nanos 9 ++ ['s'])
  else if nanos ≥ 1000000 then
    String.mk (natDigs (nanos / 1000000) ++ fracPart (nanos % 1000000) 6 ++ ['m', 's'])
  else if nanos ≥ 1000 then
    String.mk (natDigs (nanos / 1000) ++ fracPart (nanos % 1000) 3 ++ ['µ', 's'])
  else
    String.mk (natDigs nanos ++ ['n', 's'])

/-- `<BridgeError as Display>::to_string`, from the `#[error(...)]`
attributes of `lib.rs` lines 15–34. -/
def BridgeError.toString : BridgeError → String
  | .io m => "IO error: " ++ m
  | .json m => "JSON serialization error: " ++ m
  | .timeout d => "Process timeout after " ++ durationDebug d
  | .processFailed c => "Process exited with non-zero status: " ++ ToString.toString c
  | .invalidOutput m => "Invalid output format: " ++ m
  | .toolNotFound n => "Tool not found: " ++ n

/-- `true` exactly on `BridgeError::InvalidOutput`. -/
def BridgeError.isInvalidOutputErr : BridgeError → Bool
  | .invalidOutput _ => true
  | _ => false

/-- `true` when a `BridgeResult` is an `InvalidOutput` error. -/
def resultIsInvalidOutput {O : Type} : BridgeResult O → Bool
  | .error e => e.isInvalidOutputErr
  | .ok _ => false

/-!
## Tool adapters (`codexify.rs`, `ritual_engine.rs`)
-/

/-- `CodexifyRequest` of `codexify.rs` lines 8–12 (`HashMap` as an
association list). -/
structure CodexifyRequest where
  file_path : String
  tags : Option (List String)
  metadata : Option (List (String × String))
deriving Repr, DecidableEq

/-- `CodexifyResponse` of `codexify.rs` lines 16–22 (`chrono` timestamp as an
abstract instant). -/
structure CodexifyResponse where
  node_id : String
  summary : String
  metadata : List (String × String)
  tags : List String
  created_at : Nat
deriving Repr, DecidableEq

/-- `RitualEngineRequest` of `ritual_engine.rs` lines 8–13. -/
structure RitualEngineRequest where
  ritual_type : String
  parameters : List (String × String)
  context : Option String
  metadata : Option (List (String × String))
deriving Repr, DecidableEq

/-- `RitualEngineResponse` of `ritual_engine.rs` lines 17–24. -/
structure RitualEngineResponse where
  ritual_id : String
  status : String
  result : List (String × String)
  logs : List String
  metadata : List (String × String)
  completed_at : Nat
deriving Repr, DecidableEq

/-- `run_codexify` of `codexify.rs` lines 25–61.  `ser` models
`serde_json::to_string` for `CodexifyRequest`, `parseResp` models
`serde_json::from_str::<CodexifyResponse>`, `duration` is the elapsed time
measured around the executor call, `now` the envelope timestamp.  The default
config (line 30) is `SubprocessConfig::default()` with a 60 second timeout. -/
def run_codexify (request : CodexifyRequest)
    (ser : CodexifyRequest → Except String String)
    (parseResp : String → Except String CodexifyResponse)
    (config : Option SubprocessConfig) (b : ChildBehavior)
    (duration : Duration) (now : Nat) :
    BridgeResult (CapabilityResult CodexifyResponse) :=
  let cfg := config.getD { SubprocessConfig.default with timeout := Duration.fromSecs 60 }
  match (spawn_subprocess "python3" ["guardian-backend_v2/codexify/main.py"]
      (ser request) parseResp cfg b).result with
  | .ok response => .ok (CapabilityResult.mkSuccess response "codexify" duration "1.0.0" now)
  | .error e => .ok (CapabilityResult.mkError e.toString "codexify" duration "1.0.0" now)

/-- `run_ritual_engine` of `ritual_engine.rs` lines 27–63; the default config
(line 32) is `SubprocessConfig::default()` with a 120 second timeout. -/
def run_ritual_engine (request : RitualEngineRequest)
    (ser : RitualEngineRequest → Except String String)
    (parseResp : String → Except String RitualEngineResponse)
    (config : Option SubprocessConfig) (b : ChildBehavior)
    (duration : Duration) (now : Nat) :
    BridgeResult (CapabilityResult RitualEngineResponse) :=
  let cfg := config.getD { SubprocessConfig.default with timeout := Duration.fromSecs 120 }
  match (spawn_subprocess "python3" ["guardian-backend_v2/ritual_engine/main.py"]
      (ser request) parseResp cfg b).result with
  | .ok response => .ok (CapabilityResult.mkSuccess response "ritual_engine" duration "1.0.0" now)
  | .error e => .ok (CapabilityResult.mkError e.toString "ritual_engine" duration "1.0.0" now)

/-- A concrete deserializer used to exercise the executor on concrete
behaviors: accepts exactly the text `"7"`, with `serde_json`'s diagnostic for
anything else. -/
def parseNat7 : String → Except String Nat :=
  fun s => if s = "7" then .ok 7 else .error "expected value at line 1 column 1"

/-!
## JSON model (`serde_json`)

The manifest operations of `manifest.rs` serialize with
`serde_json::to_string_pretty` and parse with `serde_json::from_str`.  The
embedding gives an executable model of both over a JSON syntax tree whose
numbers are integers (the manifest's numeric data is integral; floating
point numbers are outside the model).  Recursive functions over the nested
tree take an explicit fuel argument, instantiated with a sufficient bound;
`serde_json`'s recursion-depth limit of 128 is not modelled.
-/

/-- `serde_json::Value`, with integer numbers. -/
inductive Json where
  | null
  | bool (b : Bool)
  | num (n : Int)
  | str (s : String)
  | arr (elems : List Json)
  | obj (fields : List (String × Json))
deriving Repr

mutual

/-- Structural size of a JSON value, used as printer fuel. -/
def jsize : Json → Nat
  | .null => 1
  | .bool _ => 1
  | .num _ => 1
  | .str _ => 1
  | .arr l => 1 + jsizeList l
  | .obj fs => 1 + jsizeFields fs

/-- Structural size of a list of JSON values. -/
def jsizeList : List Json → Nat
  | [] => 1
  | x :: xs => 1 + jsize x + jsizeList xs

/-- Structural size of a list of JSON object members. -/
def jsizeFields : List (String × Json) → Nat
  | [] => 1
  | (_, v) :: fs => 1 + jsize v + jsizeFields fs

end

/-- The opening brace character. -/
def lbrace : Char := Char.ofNat 123

/-- The closing brace character. -/
def rbrace : Char := Char.ofNat 125

/-- Lowercase hexadecimal digit character. -/
def hexDigitChar (d : Nat) : Char :=
  if d < 10 then Char.ofNat (48 + d) else Char.ofNat (87 + d)

/-- `serde_json`'s string escaping: quote, backslash, the short control
escapes, `\u00XX` for the remaining control characters, everything else
verbatim. -/
def escapeChar (c : Char) : List Char :=
  if c = '\"' then ['\\', '\"']
  else if c = '\\' then ['\\', '\\']
  else if c = Char.ofNat 8 then ['\\', 'b']
  else if c = '\t' then ['\\', 't']
  else if c = '\n' then ['\\', 'n']
  else if c = Char.ofNat 12 then ['\\', 'f']
  else if c = '\r' then ['\\', 'r']
  else if c.toNat < 32 then
    ['\\', 'u', '0', '0', hexDigitChar (c.toNat / 16), hexDigitChar (c.toNat % 16)]
  else [c]

/-- Escape a string body. -/
def escapeList (cs : List Char) : List Char := cs.flatMap escapeChar

/-- Print a JSON string literal. -/
def printStr (s : String) : List Char := '\"' :: (escapeList s.data ++ ['\"'])

/-- Print an integer in decimal, `serde_json` style. -/
def printIntChars (i : Int) : List Char :=
  if i < 0 then '-' :: natDigs i.natAbs else natDigs i.toNat

/-- Two-space indentation of `serde_json::ser::PrettyFormatter`. -/
def indentChars (n : Nat) : List Char := List.replicate (2 * n) ' '

mutual

/-- `serde_json::to_string_pretty`, character list form, fuel-driven: the
fuel only needs to exceed the nesting structure (any fuel at least `sizeOf`
of the value works). -/
def printVal : Nat → Nat → Json → List Char
  | 0, _, _ => []
  | _ + 1, _, .null => ['n', 'u', 'l', 'l']
  | _ + 1, _, .bool true => ['t', 'r', 'u', 'e']
  | _ + 1, _, .bool false => ['f', 'a', 'l', 's', 'e']
  | _ + 1, _, .num i => printIntChars i
  | _ + 1, _, .str s => printStr s
  | _ + 1, _, .arr [] => ['[', ']']
  | fuel + 1, ind, .arr (x :: xs) =>
    '[' :: '\n' :: (indentChars (ind + 1) ++ (printVal fuel (ind + 1) x
      ++ (printArrTail fuel (ind + 1) xs
        ++ '\n' :: (indentChars ind ++ [']']))))
  | _ + 1, _, .obj [] => [lbrace, rbrace]
  | fuel + 1, ind, .obj (f :: fs) =>
    lbrace :: '\n' :: (indentChars (ind + 1) ++ (printField fuel (ind + 1) f
      ++ (printObjTail fuel (ind + 1) fs
        ++ '\n' :: (indentChars ind ++ [rbrace]))))

/-- One `"key": value` member. -/
def printField : Nat → Nat → String × Json → List Char
  | 0, _, _ => []
  | fuel + 1, ind, (k, v) => printStr k ++ (':' :: ' ' :: printVal fuel ind v)

/-- The remaining array elements, each preceded by a comma and a newline. -/
def printArrTail : Nat → Nat → List Json → List Char
  | 0, _, _ => []
  | _ + 1, _, [] => []
  | fuel + 1, ind, x :: xs =>
    ',' :: '\n' :: (indentChars ind ++ (printVal fuel ind x ++ printArrTail fuel ind xs))

/-- The remaining object members, each preceded by a comma and a newline. -/
def printObjTail : Nat → Nat → List (String × Json) → List Char
  | 0, _, _ => []
  | _ + 1, _, [] => []
  | fuel + 1, ind, f :: fs =>
    ',' :: '\n' :: (indentChars ind ++ (printField fuel ind f ++ printObjTail fuel ind fs))

end

/-- `serde_json::to_string_pretty` on a value. -/
def to_string_pretty (j : Json) : String := String.mk (printVal (jsize j) 0 j)

/-- JSON insignificant whitespace. -/
def isWs (c : Char) : Bool := c = ' ' || c = '\n' || c = '\t' || c = '\r'

/-- Skip insignificant whitespace. -/
def skipWs : List Char → List Char
  | [] => []
  | c :: cs => if isWs c then skipWs cs else c :: cs

/-- Value of a hexadecimal digit character. -/
def hexVal (c : Char) : Option Nat :=
  if '0' ≤ c ∧ c ≤ '9' then some (c.toNat - 48)
  else if 'a' ≤ c ∧ c ≤ 'f' then some (c.toNat - 87)
  else if 'A' ≤ c ∧ c ≤ 'F' then some (c.toNat - 55)
  else none

mutual

/-- Parse a JSON string body after the opening quote: plain characters up to
the closing quote, backslash escapes including `\uXXXX` with surrogate
pairs; unescaped control characters are rejected, as `serde_json` does. -/
def parseStringBody : List Char → Option (List Char × List Char)
  | [] => none
  | c :: cs =>
    if c = '\"' then some ([], cs)
    else if c = '\\' then parseEscape cs
    else if c.toNat < 32 then none
    else (parseStringBody cs).map (fun p => (c :: p.1, p.2))

/-- The character after a backslash. -/
def parseEscape : List Char → Option (List Char × List Char)
  | [] => none
  | e :: cs2 =>
    if e = '\"' then (parseStringBody cs2).map (fun p => ('\"' :: p.1, p.2))
    else if e = '\\' then (parseStringBody cs2).map (fun p => ('\\' :: p.1, p.2))
    else if e = '/' then (parseStringBody cs2).map (fun p => ('/' :: p.1, p.2))
    else if e = 'b' then (parseStringBody cs2).map (fun p => (Char.ofNat 8 :: p.1, p.2))
    else if e = 'f' then (parseStringBody cs2).map (fun p => (Char.ofNat 12 :: p.1, p.2))
    else if e = 'n' then (parseStringBody cs2).map (fun p => ('\n' :: p.1, p.2))
    else if e = 'r' then (parseStringBody cs2).map (fun p => ('\r' :: p.1, p.2))
    else if e = 't' then (parseStringBody cs2).map (fun p => ('\t' :: p.1, p.2))
    else if e = 'u' then parseUnicode cs2
    else none

/-- The four hex digits after `\u`; a high surrogate expects a paired
`\uXXXX` low surrogate. -/
def parseUnicode : List Char → Option (List Char × List Char)
  | h1 :: h2 :: h3 :: h4 :: cs3 =>
    match hexVal h1, hexVal h2, hexVal h3, hexVal h4 with
    | some a, some b, some c3, some d =>
      let n := ((a * 16 + b) * 16 + c3) * 16 + d
      if 55296 ≤ n ∧ n < 56320 then parseLowSurrogate n cs3
      else if 56320 ≤ n ∧ n < 57344 then none
      else (parseStringBody cs3).map (fun p => (Char.ofNat n :: p.1, p.2))
    | _, _, _, _ => none
  | _ => none

/-- The `\uXXXX` low half of a surrogate pair, combined with the high half
`n`. -/
def parseLowSurrogate (n : Nat) : List Char → Option (List Char × List Char)
  | b1 :: u1 :: h5 :: h6 :: h7 :: h8 :: cs4 =>
    if b1 = '\\' ∧ u1 = 'u' then
      match hexVal h5, hexVal h6, hexVal h7, hexVal h8 with
      | some a2, some b2, some c2, some d2 =>
        let m := ((a2 * 16 + b2) * 16 + c2) * 16 + d2
        if 56320 ≤ m ∧ m < 57344 then
          (parseStringBody cs4).map (fun p =>
            (Char.ofNat (65536 + (n - 55296) * 1024 + (m - 56320)) :: p.1, p.2))
        else none
      | _, _, _, _ => none
    else none
  | _ => none

end

/-- Value of a decimal digit character. -/
def digitVal (c : Char) : Nat := c.toNat - 48

/-- Accumulate the value of a digit run. -/
def digitsVal : List Char → Nat → Nat
  | [], acc => acc
  | c :: cs, acc => digitsVal cs (acc * 10 + digitVal c)

/-- Parse an unsigned integer token: a maximal digit run without a redundant
leading zero, not followed by a fraction or exponent (fractional and
exponent numbers parse as floating point, outside this integer model). -/
def parseUIntToken (cs : List Char) : Option (Nat × List Char) :=
  let ds := cs.takeWhile Char.isDigit
  let rest := cs.dropWhile Char.isDigit
  if ds = [] then none
  else if ds.length > 1 ∧ ds.head? = some '0' then none
  else
    match rest with
    | [] => some (digitsVal ds 0, rest)
    | c :: _ => if c = '.' ∨ c = 'e' ∨ c = 'E' then none else some (digitsVal ds 0, rest)

/-- Parse an integer token with optional leading minus. -/
def parseIntToken (cs : List Char) : Option (Int × List Char) :=
  match cs with
  | [] => none
  | c :: cs1 =>
    if c = '-' then (parseUIntToken cs1).map (fun p => (-(p.1 : Int), p.2))
    else (parseUIntToken (c :: cs1)).map (fun p => ((p.1 : Int), p.2))

/-- `true` when the list does not begin with a character that could extend a
numeric token (digit, decimal point, exponent marker); the text a printed
JSON value is followed by always satisfies this. -/
def restStop : List Char → Bool
  | [] => true
  | c :: _ => !(c.isDigit || c = '.' || c = 'e' || c = 'E')

mutual

/-- `serde_json::from_str`'s value grammar, fuel-driven recursive descent;
returns the parsed value and the unconsumed suffix. -/
def parseVal : Nat → List Char → Option (Json × List Char)
  | 0, _ => none
  | fuel + 1, cs =>
    match skipWs cs with
    | [] => none
    | c :: cs1 =>
      if c = 'n' then
        match cs1 with
        | 'u' :: 'l' :: 'l' :: rest => some (.null, rest)
        | _ => none
      else if c = 't' then
        match cs1 with
        | 'r' :: 'u' :: 'e' :: rest => some (.bool true, rest)
        | _ => none
      else if c = 'f' then
        match cs1 with
        | 'a' :: 'l' :: 's' :: 'e' :: rest => some (.bool false, rest)
        | _ => none
      else if c = '\"' then
        (parseStringBody cs1).map (fun p => (.str (String.mk p.1), p.2))
      else if c = '[' then
        match skipWs cs1 with
        | [] => none
        | d :: ds =>
          if d = ']' then some (.arr [], ds)
          else
            match parseVal fuel (d :: ds) with
            | none => none
            | some (v, rest) =>
              match parseArrTail fuel rest with
              | none => none
              | some (vs, rest2) => some (.arr (v :: vs), rest2)
      else if c = lbrace then
        match skipWs cs1 with
        | [] => none
        | d :: ds =>
          if d = rbrace then some (.obj [], ds)
          else
            match parseField fuel (d :: ds) with
            | none => none
            | some (f, rest) =>
              match parseObjTail fuel rest with
              | none => none
              | some (fs, rest2) => some (.obj (f :: fs), rest2)
      else (parseIntToken (c :: cs1)).map (fun p => (.num p.1, p.2))

/-- One `"key": value` member. -/
def parseField : Nat → List Char → Option ((String × Json) × List Char)
  | 0, _ => none
  | fuel + 1, cs =>
    match skipWs cs with
    | [] => none
    | c :: cs1 =>
      if c = '\"' then
        match parseStringBody cs1 with
        | none => none
        | some (k, rest) =>
          match skipWs rest with
          | [] => none
          | d :: rest2 =>
            if d = ':' then
              (parseVal fuel rest2).map (fun p => ((String.mk k, p.1), p.2))
            else none
      else none

/-- Array continuation: a closing bracket or a comma and a further element. -/
def parseArrTail : Nat → List Char → Option (List Json × List Char)
  | 0, _ => none
  | fuel + 1, cs =>
    match skipWs cs with
    | [] => none
    | d :: ds =>
      if d = ']' then some ([], ds)
      else if d = ',' then
        match parseVal fuel ds with
        | none => none
        | some (v, rest) =>
          (parseArrTail fuel rest).map (fun p => (v :: p.1, p.2))
      else none

/-- Object continuation: a closing brace or a comma and a further member. -/
def parseObjTail : Nat → List Char → Option (List (String × Json) × List Char)
  | 0, _ => none
  | fuel + 1, cs =>
    match skipWs cs with
    | [] => none
    | d :: ds =>
      if d = rbrace then some ([], ds)
      else if d = ',' then
        match parseField fuel ds with
        | none => none
        | some (f, rest) =>
          (parseObjTail fuel rest).map (fun p => (f :: p.1, p.2))
      else none

end

/-- The dispatch of `parseVal` after whitespace skipping, split out as a
plain definition (definitionally equal to the corresponding branch of
`parseVal`) so the branches can be reasoned about one at a time. -/
def parseValCore (q : Nat) (c : Char) (cs1 : List Char) : Option (Json × List Char) :=
  if c = 'n' then
    match cs1 with
    | 'u' :: 'l' :: 'l' :: rest => some (.null, rest)
    | _ => none
  else if c = 't' then
    match cs1 with
    | 'r' :: 'u' :: 'e' :: rest => some (.bool true, rest)
    | _ => none
  else if c = 'f' then
    match cs1 with
    | 'a' :: 'l' :: 's' :: 'e' :: rest => some (.bool false, rest)
    | _ => none
  else if c = '\"' then
    (parseStringBody cs1).map (fun p => (.str (String.mk p.1), p.2))
  else if c = '[' then
    match skipWs cs1 with
    | [] => none
    | d :: ds =>
      if d = ']' then some (.arr [], ds)
      else
        match parseVal q (d :: ds) with
        | none => none
        | some (v, rest) =>
          match parseArrTail q rest with
          | none => none
          | some (vs, rest2) => some (.arr (v :: vs), rest2)
  else if c = lbrace then
    match skipWs cs1 with
    | [] => none
    | d :: ds =>
      if d = rbrace then some (.obj [], ds)
      else
        match parseField q (d :: ds) with
        | none => none
        | some (f, rest) =>
          match parseObjTail q rest with
          | none => none
          | some (fs, rest2) => some (.obj (f :: fs), rest2)
  else (parseIntToken (c :: cs1)).map (fun p => (.num p.1, p.2))

/-- The dispatch of `parseField` after whitespace skipping. -/
def parseFieldCore (q : Nat) (c : Char) (cs1 : List Char) :
    Option ((String × Json) × List Char) :=
  if c = '\"' then
    match parseStringBody cs1 with
    | none => none
    | some (k, rest) =>
      match skipWs rest with
      | [] => none
      | d :: rest2 =>
        if d = ':' then
          (parseVal q rest2).map (fun p => ((String.mk k, p.1), p.2))
        else none
  else none

/-- The dispatch of `parseArrTail` after whitespace skipping. -/
def parseArrTailCore (q : Nat) (d : Char) (ds : List Char) :
    Option (List Json × List Char) :=
  if d = ']' then some ([], ds)
  else if d = ',' then
    match parseVal q ds with
    | none => none
    | some (v, rest) =>
      (parseArrTail q rest).map (fun p => (v :: p.1, p.2))
  else none

/-- The dispatch of `parseObjTail` after whitespace skipping. -/
def parseObjTailCore (q : Nat) (d : Char) (ds : List Char) :
    Option (List (String × Json) × List Char) :=
  if d = rbrace then some ([], ds)
  else if d = ',' then
    match parseField q ds with
    | none => none
    | some (f, rest) =>
      (parseObjTail q rest).map (fun p => (f :: p.1, p.2))
  else none

/-!
## The manifest model (`manifest.rs`)
-/

/-- `InputSchema` of `manifest.rs` lines 22–28 (`r#type` is the JSON field
`type`; `default` is an `Option<serde_json::Value>`). -/
structure InputSchema where
  type : String
  description : String
  required : Bool
  default : Option Json
deriving Repr

/-- `OutputSchema` of `manifest.rs` lines 30–34. -/
structure OutputSchema where
  type : String
  description : String
deriving Repr

/-- `Manifest` of `manifest.rs` lines 7–20, with the three `HashMap` fields
as association lists. -/
structure Manifest where
  name : String
  version : String
  description : String
  language : String
  entry_point : String
  capabilities : List String
  schema : Option String
  timeout_sec : Nat
  requirements : List (String × String)
  inputs : List (String × InputSchema)
  outputs : List (String × OutputSchema)
deriving Repr

/-- Derived `Serialize` for `InputSchema`: fields in declaration order;
`Option<Value>` serializes `None` as `null` and `Some(v)` as `v`. -/
def InputSchema.toJson (s : InputSchema) : Json :=
  .obj [("type", .str s.type), ("description", .str s.description),
    ("required", .bool s.required), ("default", s.default.getD .null)]

/-- Derived `Serialize` for `OutputSchema`. -/
def OutputSchema.toJson (s : OutputSchema) : Json :=
  .obj [("type", .str s.type), ("description", .str s.description)]

/-- A `HashMap<String, String>` as a JSON object (iteration order is the
list order of the model). -/
def strMapToJson (m : List (String × String)) : Json :=
  .obj (m.map (fun p => (p.1, .str p.2)))

/-- Derived `Serialize` for `Manifest`: fields in declaration order. -/
def Manifest.toJson (m : Manifest) : Json :=
  .obj [("name", .str m.name), ("version", .str m.version),
    ("description", .str m.description), ("language", .str m.language),
    ("entry_point", .str m.entry_point),
    ("capabilities", .arr (m.capabilities.map Json.str)),
    ("schema", (m.schema.map Json.str).getD .null),
    ("timeout_sec", .num (m.timeout_sec : Int)),
    ("requirements", strMapToJson m.requirements),
    ("inputs", .obj (m.inputs.map (fun p => (p.1, p.2.toJson)))),
    ("outputs", .obj (m.outputs.map (fun p => (p.1, p.2.toJson))))]

/-- Look a field up by name (serde accepts members in any order). -/
def getField (fields : List (String × Json)) (k : String) : Option Json :=
  (fields.find? (fun p => p.1 == k)).map Prod.snd

/-- `String::deserialize`. -/
def decodeString : Json → Option String
  | .str s => some s
  | _ => none

/-- `bool::deserialize`. -/
def decodeBool : Json → Option Bool
  | .bool b => some b
  | _ => none

/-- `u64::deserialize`: an integer in the `u64` range. -/
def decodeU64 : Json → Option Nat
  | .num n => if n < 0 ∨ (2 : Int) ^ 64 ≤ n then none else some n.toNat
  | _ => none

/-- `Option<String>::deserialize`: `null` is `None`. -/
def decodeStringOpt : Json → Option (Option String)
  | .null => some none
  | .str s => some (some s)
  | _ => none

/-- `Option<serde_json::Value>::deserialize`: `null` deserializes as `None`
(so a serialized `Some(Value::Null)` comes back as `None`). -/
def decodeJsonOpt : Json → Option (Option Json)
  | .null => some none
  | v => some (some v)

/-- Decode every element of a JSON array. -/
def decodeList {A : Type} (dec : Json → Option A) : List Json → Option (List A)
  | [] => some []
  | v :: rest =>
    match dec v with
    | none => none
    | some a => (decodeList dec rest).map (fun l => a :: l)

/-- Decode every member value of a JSON object. -/
def decodeEntries {A : Type} (dec : Json → Option A) :
    List (String × Json) → Option (List (String × A))
  | [] => some []
  | (k, v) :: rest =>
    match dec v with
    | none => none
    | some a => (decodeEntries dec rest).map (fun l => (k, a) :: l)

/-- Derived `Deserialize` for `InputSchema`: required fields must be present
with the right shape; the `Option` field treats a missing member or `null`
as `None`. -/
def InputSchema.fromJson : Json → Option InputSchema
  | .obj fields => do
    let t ← getField fields "type" >>= decodeString
    let desc ← getField fields "description" >>= decodeString
    let req ← getField fields "required" >>= decodeBool
    let d ←
      match getField fields "default" with
      | none => some none
      | some v => decodeJsonOpt v
    pure ⟨t, desc, req, d⟩
  | _ => none

/-- Derived `Deserialize` for `OutputSchema`. -/
def OutputSchema.fromJson : Json → Option OutputSchema
  | .obj fields => do
    let t ← getField fields "type" >>= decodeString
    let desc ← getField fields "description" >>= decodeString
    pure ⟨t, desc⟩
  | _ => none

/-- Derived `Deserialize` for `Manifest`. -/
def Manifest.fromJson : Json → Option Manifest
  | .obj fields => do
    let name ← getField fields "name" >>= decodeString
    let version ← getField fields "version" >>= decodeString
    let description ← getField fields "description" >>= decodeString
    let language ← getField fields "language" >>= decodeString
    let entry_point ← getField fields "entry_point" >>= decodeString
    let capabilities ←
      match getField fields "capabilities" with
      | some (.arr l) => decodeList decodeString l
      | _ => none
    let schema ←
      match getField fields "schema" with
      | none => some none
      | some v => decodeStringOpt v
    let timeout_sec ← getField fields "timeout_sec" >>= decodeU64
    let requirements ←
      match getField fields "requirements" with
      | some (.obj fs) => decodeEntries decodeString fs
      | _ => none
    let inputs ←
      match getField fields "inputs" with
      | some (.obj fs) => decodeEntries InputSchema.fromJson fs
      | _ => none
    let outputs ←
      match getField fields "outputs" with
      | some (.obj fs) => decodeEntries OutputSchema.fromJson fs
      | _ => none
    pure ⟨name, version, description, language, entry_point, capabilities,
      schema, timeout_sec, requirements, inputs, outputs⟩
  | _ => none

/-- `serde_json::from_str::<Manifest>`: parse exactly one JSON value (plus
insignificant whitespace) and decode it. -/
def fromStrManifest (s : String) : Except String Manifest :=
  match parseVal (s.length + 1) s.data with
  | none => .error "expected value"
  | some (j, rest) =>
    if skipWs rest = [] then
      match Manifest.fromJson j with
      | some m => .ok m
      | none => .error "invalid manifest shape"
    else .error "trailing characters"

/-- A file system as an association of paths to contents; reading returns
the most recent write. -/
abbrev FileSystem := List (String × String)

/-- `fs::write`: create or overwrite. -/
def fsWrite (fs : FileSystem) (path content : String) : FileSystem :=
  (path, content) :: fs

/-- `fs::read_to_string`. -/
def fsRead (fs : FileSystem) (path : String) : Option String :=
  (fs.find? (fun p => p.1 == path)).map Prod.snd

/-- `save_manifest` of `manifest.rs` lines 44–48: serialize to pretty JSON
and write, overwriting any existing file.  (The model file system is always
writable, so the `fs::write` error path does not arise.) -/
def save_manifest (m : Manifest) (path : String) (fs : FileSystem) : FileSystem :=
  fsWrite fs path (to_string_pretty (Manifest.toJson m))

/-- `load_manifest` of `manifest.rs` lines 36–41: read the file and
deserialize it; a missing file is the `?`-propagated `Io` error, a
deserialization failure the `Json` error. -/
def load_manifest (path : String) (fs : FileSystem) : BridgeResult Manifest :=
  match fsRead fs path with
  | none => .error (.io "No such file or directory (os error 2)")
  | some content =>
    match fromStrManifest content with
    | .error e => .error (.json e)
    | .ok m => .ok m

/-- Collapse a serialized-then-reloaded input schema: a `Some(Value::Null)`
default comes back as `None` (serde `Option` semantics), everything else is
unchanged. -/
def InputSchema.reload (s : InputSchema) : InputSchema :=
  { s with
    default :=
      match s.default with
      | some .null => none
      | d => d }

/-- Collapse a serialized-then-reloaded manifest. -/
def Manifest.reload (m : Manifest) : Manifest :=
  { m with inputs := m.inputs.map (fun p => (p.1, p.2.reload)) }

/-- `true` when no input schema declares the JSON `null` value as its
default, i.e. when reloading is the identity. -/
def InputSchema.noNullDefault (s : InputSchema) : Bool :=
  match s.default with
  | some .null => false
  | _ => true

/-- `true` when no input of the manifest has a `Some(Value::Null)` default. -/
def Manifest.noNullDefault (m : Manifest) : Bool :=
  m.inputs.all (fun p => p.2.noNullDefault)

/-- `generate_codexify_manifest` of `manifest.rs` lines 51–112 (`HashMap`
entries in insertion order). -/
def generate_codexify_manifest : Manifest :=
  { name := "codexify"
    version := "1.0.0"
    description := "Converts local files and memory logs into structured knowledge graph entries"
    language := "python"
    entry_point := "guardian-backend_v2/codexify/main.py"
    capabilities := ["fs:read", "fs:write", "memory:index", "llm"]
    schema := some "schemas/codexify.json"
    timeout_sec := 60
    requirements := [("python", ">=3.10"), ("openai", "*"), ("chromadb", "*"), ("tiktoken", "*")]
    inputs := [("file_path",
        ⟨"string", "Path to the file or folder to codexify", true, none⟩),
      ("tags",
        ⟨"array", "Optional tags to associate with this node", false, some (.arr [])⟩)]
    outputs := [("node_id", ⟨"string", "ID of the created or updated Codex node"⟩),
      ("summary", ⟨"string", "Summary of the codified input"⟩)] }

/-- `generate_ritual_engine_manifest` of `manifest.rs` lines 115–174. -/
def generate_ritual_engine_manifest : Manifest :=
  { name := "ritual_engine"
    version := "1.0.0"
    description := "Executes memory and ritual operations for ThreadSpace"
    language := "python"
    entry_point := "guardian-backend_v2/ritual_engine/main.py"
    capabilities := ["memory:process", "ritual:execute", "sync:memory"]
    schema := some "schemas/ritual_engine.json"
    timeout_sec := 120
    requirements := [("python", ">=3.10"), ("requests", "*"), ("pyyaml", "*")]
    inputs := [("ritual_type", ⟨"string", "Type of ritual to perform", true, none⟩),
      ("parameters", ⟨"object", "Parameters for the ritual", true, none⟩)]
    outputs := [("ritual_id", ⟨"string", "ID of the created ritual"⟩),
      ("status", ⟨"string", "Status of the ritual execution"⟩)] }

/-- `generate_all_manifests` of `manifest.rs` lines 177–182. -/
def generate_all_manifests : List (String × Manifest) :=
  [("codexify", generate_codexify_manifest),
    ("ritual_engine", generate_ritual_engine_manifest)]

/-- A manifest whose single input declares the JSON `null` value as its
default (`default = Some(Value::Null)`). -/
def nullDefaultManifest : Manifest :=
  { name := "null_default"
    version := "1.0.0"
    description := ""
    language := "python"
    entry_point := "main.py"
    capabilities := []
    schema := none
    timeout_sec := 60
    requirements := []
    inputs := [("x", ⟨"object", "", false, some .null⟩)]
    outputs := [] }

/-!
## Theorems about the process executor and the envelope
-/

/-- Claim C1: for every call to `spawn_subprocess` where the child process
exits with status zero and its stdout is exactly one well-formed JSON value
deserializable as the expected response type, the function returns `Ok` of
the value parsed from that stdout.  The hypotheses spell out that the call
observes the zero exit: the request serializes, the spawn and the stdin
write succeed, and the child completes within the timeout. -/
theorem spawn_subprocess_exit_zero_returns_parsed {O : Type} (command : String)
    (args : List String) (serInput : Except String String)
    (parseO : String → Except String O) (config : SubprocessConfig)
    (b : ChildBehavior) (s : String) (v : O)
    (hser : serInput = .ok s) (hspawn : b.spawnError = none)
    (hwrite : b.writeError = none) (htime : b.inTime = true)
    (hwait : b.waitError = none) (hexit : b.exitCode = some 0)
    (hparse : parseO b.stdout = .ok v) :
    (spawn_subprocess command args serInput parseO config b).result = .ok v := by
  subst hser
  simp [spawn_subprocess, hspawn, hwrite, htime, hwait, hexit, hparse]

theorem spawn_subprocess_exit_zero_returns_parsed_witness :
    (⟨none, none, true, none, some 0, "7", ""⟩ : ChildBehavior).exitCode = some 0
    ∧ parseNat7 "7" = .ok 7
    ∧ (spawn_subprocess "python3" [] (.ok "1") parseNat7 SubprocessConfig.default
        ⟨none, none, true, none, some 0, "7", ""⟩).result = .ok 7 :=
  ⟨rfl, by decide,
    spawn_subprocess_exit_zero_returns_parsed "python3" [] (.ok "1") parseNat7
      SubprocessConfig.default ⟨none, none, true, none, some 0, "7", ""⟩ "1" 7
      rfl rfl rfl rfl rfl rfl (by decide)⟩

/-- Claim C2: when the child does not exit within `config.timeout`, the call
kills the process (so it is not left running: `released = true`), discards
any partial output, and returns a `Timeout` error carrying exactly the
configured duration. -/
theorem spawn_subprocess_timeout_kills_and_reports_duration {O : Type}
    (command : String) (args : List String) (serInput : Except String String)
    (parseO : String → Except String O) (config : SubprocessConfig)
    (b : ChildBehavior) (s : String)
    (hser : serInput = .ok s) (hspawn : b.spawnError = none)
    (hwrite : b.writeError = none) (htime : b.inTime = false) :
    (spawn_subprocess command args serInput parseO config b).result
        = .error (.timeout config.timeout)
    ∧ (spawn_subprocess command args serInput parseO config b).released = true := by
  subst hser
  constructor <;> simp [spawn_subprocess, hspawn, hwrite, htime]

theorem spawn_subprocess_timeout_kills_and_reports_duration_witness :
    (⟨none, none, false, none, none, "", ""⟩ : ChildBehavior).inTime = false
    ∧ (spawn_subprocess "python3" [] (.ok "1") parseNat7 SubprocessConfig.default
        ⟨none, none, false, none, none, "", ""⟩).result
        = .error (.timeout (Duration.fromSecs 30))
    ∧ (spawn_subprocess "python3" [] (.ok "1") parseNat7 SubprocessConfig.default
        ⟨none, none, false, none, none, "", ""⟩).released = true :=
  ⟨rfl,
    (spawn_subprocess_timeout_kills_and_reports_duration "python3" [] (.ok "1") parseNat7
      SubprocessConfig.default ⟨none, none, false, none, none, "", ""⟩ "1"
      rfl rfl rfl rfl).1,
    (spawn_subprocess_timeout_kills_and_reports_duration "python3" [] (.ok "1") parseNat7
      SubprocessConfig.default ⟨none, none, false, none, none, "", ""⟩ "1"
      rfl rfl rfl rfl).2⟩

/-- Claim C3: when the child exits with a status other than success, the call
returns `ProcessFailed` carrying `status.code()`, or the sentinel `-1` when
no code is available (termination by signal, `exitCode = none`); the captured
stderr does not appear in the returned error value — the result is the same
for every stderr text. -/
theorem spawn_subprocess_nonzero_exit_reports_code {O : Type} (command : String)
    (args : List String) (serInput : Except String String)
    (parseO : String → Except String O) (config : SubprocessConfig)
    (b : ChildBehavior) (s : String)
    (hser : serInput = .ok s) (hspawn : b.spawnError = none)
    (hwrite : b.writeError = none) (htime : b.inTime = true)
    (hwait : b.waitError = none) (hexit : b.exitCode ≠ some 0) :
    (spawn_subprocess command args serInput parseO config b).result
        = .error (.processFailed (b.exitCode.getD (-1)))
    ∧ ∀ s2 : String,
        (spawn_subprocess command args serInput parseO config { b with stderr := s2 }).result
          = (spawn_subprocess command args serInput parseO config b).result := by
  subst hser
  constructor
  · simp [spawn_subprocess, hspawn, hwrite, htime, hwait, hexit]
  · intro s2
    rcases b with ⟨se', we', it', wa', ec', so', sde'⟩
    simp only at hspawn hwrite htime hwait hexit
    subst hspawn; subst hwrite; subst htime; subst hwait
    simp [spawn_subprocess, hexit]

theorem spawn_subprocess_nonzero_exit_reports_code_witness :
    (⟨none, none, true, none, some 2, "", "boom"⟩ : ChildBehavior).exitCode ≠ some 0
    ∧ (spawn_subprocess "python3" [] (.ok "1") parseNat7 SubprocessConfig.default
        ⟨none, none, true, none, some 2, "", "boom"⟩).result
        = .error (.processFailed 2) :=
  ⟨by decide,
    (spawn_subprocess_nonzero_exit_reports_code "python3" [] (.ok "1") parseNat7
      SubprocessConfig.default ⟨none, none, true, none, some 2, "", "boom"⟩ "1"
      rfl rfl rfl rfl rfl (by decide)).1⟩

/-- Claim C4, counterexample: a child that exits 0 and writes `not json` makes
`spawn_subprocess` return a `Json` (serialization) error — the `?` on the
`serde_json::from_str` call converts the parse failure through
`BridgeError::Json` — not the `InvalidOutput` error the claim names. -/
theorem parse_failure_is_json_error_not_invalid_output_cex :
    (spawn_subprocess "python3" [] (.ok "1") parseNat7 SubprocessConfig.default
        ⟨none, none, true, none, some 0, "not json", ""⟩).result
      = .error (.json "expected value at line 1 column 1")
    ∧ resultIsInvalidOutput
        (spawn_subprocess "python3" [] (.ok "1") parseNat7 SubprocessConfig.default
          ⟨none, none, true, none, some 0, "not json", ""⟩).result = false := by
  constructor <;> decide

/-- Claim C4 as amended: when the child exits with status zero but its
(lossily decoded) stdout fails to parse as the expected shape, the call
returns a `Json` serialization error carrying the deserializer's diagnostic
message (not the raw payload); the `InvalidOutput` variant is not used. -/
theorem spawn_subprocess_parse_failure_returns_json_error {O : Type}
    (command : String) (args : List String) (serInput : Except String String)
    (parseO : String → Except String O) (config : SubprocessConfig)
    (b : ChildBehavior) (s e : String)
    (hser : serInput = .ok s) (hspawn : b.spawnError = none)
    (hwrite : b.writeError = none) (htime : b.inTime = true)
    (hwait : b.waitError = none) (hexit : b.exitCode = some 0)
    (hparse : parseO b.stdout = .error e) :
    (spawn_subprocess command args serInput parseO config b).result = .error (.json e) := by
  subst hser
  simp [spawn_subprocess, hspawn, hwrite, htime, hwait, hexit, hparse]

theorem spawn_subprocess_parse_failure_returns_json_error_witness :
    parseNat7 "not json" = .error "expected value at line 1 column 1"
    ∧ (spawn_subprocess "python3" [] (.ok "1") parseNat7 SubprocessConfig.default
        ⟨none, none, true, none, some 0, "not json", ""⟩).result
        = .error (.json "expected value at line 1 column 1") :=
  ⟨by decide,
    spawn_subprocess_parse_failure_returns_json_error "python3" [] (.ok "1") parseNat7
      SubprocessConfig.default ⟨none, none, true, none, some 0, "not json", ""⟩
      "1" "expected value at line 1 column 1"
      rfl rfl rfl rfl rfl rfl (by decide)⟩

/-- Claim C5: every `CapabilityResult` built by the two constructors satisfies
the envelope invariant: the success flag holds iff the data field is present
iff the error field is absent — never both set, never both absent. -/
theorem capability_result_envelope_invariant {T : Type} (x : T)
    (msg tool ver : String) (dur : Duration) (now : Nat) :
    (((CapabilityResult.mkSuccess x tool dur ver now).success = true
        ↔ (CapabilityResult.mkSuccess x tool dur ver now).data.isSome = true)
      ∧ ((CapabilityResult.mkSuccess x tool dur ver now).success = true
        ↔ (CapabilityResult.mkSuccess x tool dur ver now).error = none)
      ∧ (CapabilityResult.mkSuccess x tool dur ver now).success = true
      ∧ (CapabilityResult.mkSuccess x tool dur ver now).data = some x
      ∧ (CapabilityResult.mkSuccess x tool dur ver now).error = none)
    ∧ (((CapabilityResult.mkError (T := T) msg tool dur ver now).success = true
        ↔ (CapabilityResult.mkError (T := T) msg tool dur ver now).data.isSome = true)
      ∧ ((CapabilityResult.mkError (T := T) msg tool dur ver now).success = true
        ↔ (CapabilityResult.mkError (T := T) msg tool dur ver now).error = none)
      ∧ (CapabilityResult.mkError (T := T) msg tool dur ver now).success = false
      ∧ (CapabilityResult.mkError (T := T) msg tool dur ver now).data = (none : Option T)
      ∧ (CapabilityResult.mkError (T := T) msg tool dur ver now).error = some msg) := by
  refine ⟨⟨?_, ?_, rfl, rfl, rfl⟩, ⟨?_, ?_, rfl, rfl, rfl⟩⟩ <;>
    simp [CapabilityResult.mkSuccess, CapabilityResult.mkError]

/-- Claim C7: the adapters return `Ok` of a populated envelope for every
outcome of the underlying executor call — a success envelope wrapping the
response on executor success, and an error envelope wrapping the error's
human-readable message (`e.to_string()`) on every executor error; the
executor error is never propagated as an `Err`. -/
theorem adapters_wrap_every_outcome_in_ok_envelope
    (reqC : CodexifyRequest) (serC : CodexifyRequest → Except String String)
    (parseC : String → Except String CodexifyResponse)
    (reqR : RitualEngineRequest) (serR : RitualEngineRequest → Except String String)
    (parseR : String → Except String RitualEngineResponse)
    (config config2 : Option SubprocessConfig) (b b2 : ChildBehavior)
    (dur dur2 : Duration) (now now2 : Nat) :
    (run_codexify reqC serC parseC config b dur now
      = .ok (match (spawn_subprocess "python3" ["guardian-backend_v2/codexify/main.py"]
            (serC reqC) parseC
            (config.getD { SubprocessConfig.default with timeout := Duration.fromSecs 60 })
            b).result with
          | .ok r => CapabilityResult.mkSuccess r "codexify" dur "1.0.0" now
          | .error e => CapabilityResult.mkError e.toString "codexify" dur "1.0.0" now))
    ∧ (run_ritual_engine reqR serR parseR config2 b2 dur2 now2
      = .ok (match (spawn_subprocess "python3" ["guardian-backend_v2/ritual_engine/main.py"]
            (serR reqR) parseR
            (config2.getD { SubprocessConfig.default with timeout := Duration.fromSecs 120 })
            b2).result with
          | .ok r => CapabilityResult.mkSuccess r "ritual_engine" dur2 "1.0.0" now2
          | .error e => CapabilityResult.mkError e.toString "ritual_engine" dur2 "1.0.0" now2)) := by
  constructor
  · cases hc : (spawn_subprocess "python3" ["guardian-backend_v2/codexify/main.py"]
        (serC reqC) parseC
        (config.getD { SubprocessConfig.default with timeout := Duration.fromSecs 60 })
        b).result with
    | ok r => simp [run_codexify, hc]
    | error e => simp [run_codexify, hc]
  · cases hc : (spawn_subprocess "python3" ["guardian-backend_v2/ritual_engine/main.py"]
        (serR reqR) parseR
        (config2.getD { SubprocessConfig.default with timeout := Duration.fromSecs 120 })
        b2).result with
    | ok r => simp [run_ritual_engine, hc]
    | error e => simp [run_ritual_engine, hc]

/-- Claim C8: two calls with the same command, args, input and behavior whose
configs agree on everything except the I/O-logging flag produce the same
outcome — the flag only changes what is logged, never the result. -/
theorem spawn_subprocess_outcome_independent_of_log_io_flag {O : Type}
    (command : String) (args : List String) (serInput : Except String String)
    (parseO : String → Except String O) (c1 c2 : SubprocessConfig) (b : ChildBehavior)
    (ht : c1.timeout = c2.timeout) (hw : c1.working_dir = c2.working_dir)
    (he : c1.env_vars = c2.env_vars) :
    (spawn_subprocess command args serInput parseO c1 b).result
      = (spawn_subprocess command args serInput parseO c2 b).result := by
  obtain ⟨t1, w1, e1, l1⟩ := c1
  obtain ⟨t2, w2, e2, l2⟩ := c2
  simp only at ht hw he
  subst ht; subst hw; subst he
  rcases b with ⟨se', we', it', wa', ec', so', sde'⟩
  cases serInput <;> cases se' <;> cases we' <;> cases it' <;> cases wa' <;>
    simp only [spawn_subprocess] <;> (repeat' split) <;> rfl

theorem spawn_subprocess_outcome_independent_of_log_io_flag_witness :
    SubprocessConfig.default.timeout
      = ({ SubprocessConfig.default with logIoFlag := false } : SubprocessConfig).timeout
    ∧ (spawn_subprocess "python3" [] (.ok "1") parseNat7 SubprocessConfig.default
        ⟨none, none, true, none, some 0, "7", ""⟩).result
      = (spawn_subprocess "python3" [] (.ok "1") parseNat7
        { SubprocessConfig.default with logIoFlag := false }
        ⟨none, none, true, none, some 0, "7", ""⟩).result :=
  ⟨rfl,
    spawn_subprocess_outcome_independent_of_log_io_flag "python3" [] (.ok "1") parseNat7
      SubprocessConfig.default { SubprocessConfig.default with logIoFlag := false }
      ⟨none, none, true, none, some 0, "7", ""⟩ rfl rfl rfl⟩

/-- Claim C9, failing input: when writing the request to the child's stdin
fails (for instance the child closed its stdin and the pipe write reports a
broken pipe), the call returns `Err(Io)` while the spawned child has been
neither killed nor waited for — `tokio::process::Child` is dropped without
`kill_on_drop`, so the child is not terminated and outlives the call,
contradicting the resource-discipline claim. -/
theorem stdin_write_failure_leaves_child_running :
    (spawn_subprocess "python3" [] (.ok "1") parseNat7 SubprocessConfig.default
        ⟨none, some "Broken pipe (os error 32)", true, none, some 0, "7", ""⟩).spawned = true
    ∧ (spawn_subprocess "python3" [] (.ok "1") parseNat7 SubprocessConfig.default
        ⟨none, some "Broken pipe (os error 32)", true, none, some 0, "7", ""⟩).released = false
    ∧ (spawn_subprocess "python3" [] (.ok "1") parseNat7 SubprocessConfig.default
        ⟨none, some "Broken pipe (os error 32)", true, none, some 0, "7", ""⟩).result
      = .error (.io "Broken pipe (os error 32)") :=
  ⟨rfl, rfl, rfl⟩

/-- Claim C10: the default `SubprocessConfig` has a timeout of exactly 30
seconds, no working-directory override, an empty extra-environment mapping,
and I/O logging enabled. -/
theorem subprocess_config_default_values :
    SubprocessConfig.default.timeout = Duration.fromSecs 30
    ∧ SubprocessConfig.default.working_dir = none
    ∧ SubprocessConfig.default.env_vars = []
    ∧ SubprocessConfig.default.logIoFlag = true :=
  ⟨rfl, rfl, rfl, rfl⟩

/-!
## Round-trip lemmas: digits
-/

theorem digitChar_isDigit {d : Nat} (h : d < 10) : (digitChar d).isDigit = true := by
  interval_cases d <;> decide

theorem digitVal_digitChar {d : Nat} (h : d < 10) : digitVal (digitChar d) = d := by
  interval_cases d <;> decide

theorem digitChar_ne_zero {d : Nat} (h : d < 10) (h0 : d ≠ 0) : digitChar d ≠ '0' := by
  interval_cases d <;> simp_all <;> decide

theorem natDigsGo_zero (fuel : Nat) : natDigsGo fuel 0 [] = [] := by
  cases fuel <;> simp [natDigsGo]

theorem natDigsGo_acc (fuel : Nat) :
    ∀ n acc, natDigsGo fuel n acc = natDigsGo fuel n [] ++ acc := by
  induction fuel with
  | zero => intro n acc; simp [natDigsGo]
  | succ f ih =>
    intro n acc
    by_cases h : n = 0
    · simp [natDigsGo, h]
    · rw [natDigsGo, natDigsGo, if_neg h, if_neg h, ih, ih (n / 10) [digitChar (n % 10)]]
      simp

theorem natDigsGo_fuel_eq :
    ∀ f1 f2 n, n < 10 ^ f1 → n < 10 ^ f2 → natDigsGo f1 n [] = natDigsGo f2 n [] := by
  intro f1 f2 n
  induction n using Nat.strong_induction_on generalizing f1 f2 with
  | _ n ih =>
    intro h1 h2
    match f1, f2 with
    | 0, f2 =>
      have : n = 0 := by simpa using h1
      subst this
      rw [natDigsGo_zero, natDigsGo_zero]
    | f1 + 1, 0 =>
      have : n = 0 := by simpa using h2
      subst this
      rw [natDigsGo_zero, natDigsGo_zero]
    | f1 + 1, f2 + 1 =>
      by_cases h : n = 0
      · subst h; rw [natDigsGo_zero, natDigsGo_zero]
      · rw [natDigsGo, natDigsGo, if_neg h, if_neg h,
          natDigsGo_acc, natDigsGo_acc f2]
        congr 1
        refine ih (n / 10) (Nat.div_lt_self (Nat.pos_of_ne_zero h) (by norm_num)) f1 f2 ?_ ?_
        · rw [Nat.div_lt_iff_lt_mul (by norm_num)]
          calc n < 10 ^ (f1 + 1) := h1
            _ = 10 ^ f1 * 10 := by ring
        · rw [Nat.div_lt_iff_lt_mul (by norm_num)]
          calc n < 10 ^ (f2 + 1) := h2
            _ = 10 ^ f2 * 10 := by ring

theorem digitsVal_append (a : Nat) (l1 l2 : List Char) :
    digitsVal (l1 ++ l2) a = digitsVal l2 (digitsVal l1 a) := by
  induction l1 generalizing a with
  | nil => rfl
  | cons c cs ih =>
    show digitsVal (cs ++ l2) (a * 10 + digitVal c)
      = digitsVal l2 (digitsVal cs (a * 10 + digitVal c))
    exact ih _

theorem digitsVal_one (a : Nat) (c : Char) : digitsVal [c] a = a * 10 + digitVal c := rfl

theorem digitsVal_natDigsGo :
    ∀ n fuel, 0 < n → n < 10 ^ fuel → digitsVal (natDigsGo fuel n []) 0 = n := by
  intro n
  induction n using Nat.strong_induction_on with
  | _ n ih =>
    intro fuel hn hf
    match fuel with
    | 0 => omega
    | f + 1 =>
      rw [natDigsGo, if_neg (by omega), natDigsGo_acc, digitsVal_append]
      by_cases h10 : n / 10 = 0
      · rw [h10, natDigsGo_zero]
        show digitsVal [digitChar (n % 10)] 0 = n
        rw [digitsVal_one, digitVal_digitChar (Nat.mod_lt n (by norm_num))]
        omega
      · have hdiv : n / 10 < 10 ^ f := by
          rw [Nat.div_lt_iff_lt_mul (by norm_num)]
          calc n < 10 ^ (f + 1) := hf
            _ = 10 ^ f * 10 := by ring
        rw [ih (n / 10) (Nat.div_lt_self hn (by norm_num)) f (Nat.pos_of_ne_zero h10) hdiv,
          digitsVal_one, digitVal_digitChar (Nat.mod_lt n (by norm_num))]
        omega

theorem lt_ten_pow_succ (n : Nat) : n < 10 ^ (n + 1) :=
  calc n < 10 ^ n := Nat.lt_pow_self (by norm_num) n
    _ ≤ 10 ^ (n + 1) := Nat.pow_le_pow_right (by norm_num) (Nat.le_succ n)

theorem digitsVal_natDigs (n : Nat) : digitsVal (natDigs n) 0 = n := by
  by_cases h : n = 0
  · subst h; rfl
  · rw [natDigs, if_neg h]
    exact digitsVal_natDigsGo n (n + 1) (Nat.pos_of_ne_zero h) (lt_ten_pow_succ n)

theorem natDigsGo_all_digits :
    ∀ fuel n acc, (∀ c ∈ acc, c.isDigit = true) →
      ∀ c ∈ natDigsGo fuel n acc, c.isDigit = true := by
  intro fuel
  induction fuel with
  | zero => intro n acc hacc; simpa [natDigsGo] using hacc
  | succ f ih =>
    intro n acc hacc c
    by_cases h : n = 0
    · rw [natDigsGo, if_pos h]; exact hacc c
    · rw [natDigsGo, if_neg h]
      refine ih (n / 10) _ ?_ c
      intro d hd
      rcases List.mem_cons.mp hd with hd | hd
      · subst hd; exact digitChar_isDigit (Nat.mod_lt n (by omega))
      · exact hacc d hd

theorem natDigs_all_digits (n : Nat) : ∀ c ∈ natDigs n, c.isDigit = true := by
  by_cases h : n = 0
  · subst h; intro c hc; simp [natDigs] at hc; subst hc; decide
  · rw [natDigs, if_neg h]
    exact natDigsGo_all_digits (n + 1) n [] (by simp)

theorem natDigsGo_head :
    ∀ n fuel, 0 < n → n < 10 ^ fuel →
      ∃ c cs, natDigsGo fuel n [] = c :: cs ∧ c.isDigit = true ∧ c ≠ '0' := by
  intro n
  induction n using Nat.strong_induction_on with
  | _ n ih =>
    intro fuel hn hf
    match fuel with
    | 0 => omega
    | f + 1 =>
      rw [natDigsGo, if_neg (by omega), natDigsGo_acc]
      by_cases h10 : n / 10 = 0
      · rw [h10, natDigsGo_zero]
        have hlt : n % 10 < 10 := Nat.mod_lt n (by norm_num)
        have hne : n % 10 ≠ 0 := by omega
        exact ⟨digitChar (n % 10), [], by simp, digitChar_isDigit hlt, digitChar_ne_zero hlt hne⟩
      · have hdiv : n / 10 < 10 ^ f := by
          rw [Nat.div_lt_iff_lt_mul (by norm_num)]
          calc n < 10 ^ (f + 1) := hf
            _ = 10 ^ f * 10 := by ring
        obtain ⟨c, cs, heq, hdig, hne⟩ :=
          ih (n / 10) (Nat.div_lt_self hn (by norm_num)) f (Nat.pos_of_ne_zero h10) hdiv
        exact ⟨c, cs ++ [digitChar (n % 10)], by rw [heq]; simp, hdig, hne⟩

theorem natDigs_shape (n : Nat) :
    ∃ c cs, natDigs n = c :: cs ∧ c.isDigit = true
      ∧ ¬((c :: cs).length > 1 ∧ (c :: cs).head? = some '0') := by
  by_cases h : n = 0
  · subst h; exact ⟨'0', [], rfl, by decide, by simp⟩
  · rw [natDigs, if_neg h]
    obtain ⟨c, cs, heq, hdig, hne⟩ :=
      natDigsGo_head n (n + 1) (Nat.pos_of_ne_zero h) (lt_ten_pow_succ n)
    exact ⟨c, cs, heq, hdig, by simp [hne]⟩

/-!
## Round-trip lemmas: characters and whitespace
-/

theorem isDigit_facts {c : Char} (h : c.isDigit = true) :
    isWs c = false ∧ c ≠ ']' ∧ c ≠ rbrace ∧ c ≠ ',' ∧ c ≠ '-' ∧ c ≠ 'n' ∧ c ≠ 't'
      ∧ c ≠ 'f' ∧ c ≠ '\"' ∧ c ≠ '[' ∧ c ≠ lbrace ∧ c ≠ ':' := by
  refine ⟨?_, ?_, ?_, ?_, ?_, ?_, ?_, ?_, ?_, ?_, ?_, ?_⟩
  · by_contra hw
    rw [Bool.not_eq_false] at hw
    simp only [isWs, Bool.or_eq_true, decide_eq_true_eq] at hw
    rcases hw with ((hc | hc) | hc) | hc <;> subst hc <;> exact absurd h (by decide)
  all_goals intro heq; subst heq; exact absurd h (by decide)

theorem skipWs_cons (c : Char) (cs : List Char) :
    skipWs (c :: cs) = if isWs c then skipWs cs else c :: cs := rfl

theorem skipWs_cons_not {c : Char} (h : isWs c = false) (cs : List Char) :
    skipWs (c :: cs) = c :: cs := by
  rw [skipWs_cons, if_neg (by simp [h])]

theorem skipWs_cons_ws {c : Char} (h : isWs c = true) (cs : List Char) :
    skipWs (c :: cs) = skipWs cs := by
  rw [skipWs_cons, if_pos (by simp [h])]

theorem skipWs_replicate_space (k : Nat) (cs : List Char) :
    skipWs (List.replicate k ' ' ++ cs) = skipWs cs := by
  induction k with
  | zero => rfl
  | succ j ih =>
    rw [List.replicate_succ, List.cons_append, skipWs_cons_ws (by decide), ih]

theorem skipWs_newline_indent (n : Nat) (cs : List Char) :
    skipWs ('\n' :: (indentChars n ++ cs)) = skipWs cs := by
  rw [skipWs_cons_ws (by decide), indentChars, skipWs_replicate_space]

/-!
## Round-trip lemmas: strings
-/

theorem hexVal_hexDigitChar {d : Nat} (h : d < 16) : hexVal (hexDigitChar d) = some d := by
  interval_cases d <;> decide

theorem psb_quote (X : List Char) : parseStringBody ('\"' :: X) = some ([], X) := rfl

theorem psb_esc_quote (X : List Char) :
    parseStringBody ('\\' :: '\"' :: X)
      = (parseStringBody X).map (fun p => ('\"' :: p.1, p.2)) := rfl

theorem psb_esc_back (X : List Char) :
    parseStringBody ('\\' :: '\\' :: X)
      = (parseStringBody X).map (fun p => ('\\' :: p.1, p.2)) := rfl

theorem psb_esc_b (X : List Char) :
    parseStringBody ('\\' :: 'b' :: X)
      = (parseStringBody X).map (fun p => (Char.ofNat 8 :: p.1, p.2)) := rfl

theorem psb_esc_t (X : List Char) :
    parseStringBody ('\\' :: 't' :: X)
      = (parseStringBody X).map (fun p => ('\t' :: p.1, p.2)) := rfl

theorem psb_esc_n (X : List Char) :
    parseStringBody ('\\' :: 'n' :: X)
      = (parseStringBody X).map (fun p => ('\n' :: p.1, p.2)) := rfl

theorem psb_esc_f (X : List Char) :
    parseStringBody ('\\' :: 'f' :: X)
      = (parseStringBody X).map (fun p => (Char.ofNat 12 :: p.1, p.2)) := rfl

theorem psb_esc_r (X : List Char) :
    parseStringBody ('\\' :: 'r' :: X)
      = (parseStringBody X).map (fun p => ('\r' :: p.1, p.2)) := rfl

theorem psb_esc_u (X : List Char) :
    parseStringBody ('\\' :: 'u' :: X) = parseUnicode X := rfl

theorem parseUnicode_cons (h1 h2 h3 h4 : Char) (cs3 : List Char) :
    parseUnicode (h1 :: h2 :: h3 :: h4 :: cs3) =
      match hexVal h1, hexVal h2, hexVal h3, hexVal h4 with
      | some a, some b, some c3, some d =>
        let n := ((a * 16 + b) * 16 + c3) * 16 + d
        if 55296 ≤ n ∧ n < 56320 then parseLowSurrogate n cs3
        else if 56320 ≤ n ∧ n < 57344 then none
        else (parseStringBody cs3).map (fun p => (Char.ofNat n :: p.1, p.2))
      | _, _, _, _ => none := rfl

theorem psb_plain {c : Char} (h1 : c ≠ '\"') (h2 : c ≠ '\\') (h3 : ¬(c.toNat < 32))
    (X : List Char) :
    parseStringBody (c :: X) = (parseStringBody X).map (fun p => (c :: p.1, p.2)) := by
  show (if c = '\"' then some ([], X)
    else if c = '\\' then parseEscape X
    else if c.toNat < 32 then none
    else (parseStringBody X).map (fun p => (c :: p.1, p.2))) = _
  rw [if_neg h1, if_neg h2, if_neg h3]

theorem escapeList_cons (c : Char) (cs : List Char) :
    escapeList (c :: cs) = escapeChar c ++ escapeList cs := rfl

theorem parseStringBody_escape (cs : List Char) (rest : List Char) :
    parseStringBody (escapeList cs ++ ('\"' :: rest)) = some (cs, rest) := by
  induction cs with
  | nil => exact psb_quote rest
  | cons c cs ih =>
    rw [escapeList_cons, List.append_assoc]
    by_cases h1 : c = '\"'
    · subst h1
      rw [show escapeChar '\"' = ['\\', '\"'] from rfl,
        show (['\\', '\"'] : List Char) ++ (escapeList cs ++ '\"' :: rest)
          = '\\' :: '\"' :: (escapeList cs ++ '\"' :: rest) from rfl,
        psb_esc_quote, ih]; rfl
    by_cases h2 : c = '\\'
    · subst h2
      rw [show escapeChar '\\' = ['\\', '\\'] from rfl,
        show (['\\', '\\'] : List Char) ++ (escapeList cs ++ '\"' :: rest)
          = '\\' :: '\\' :: (escapeList cs ++ '\"' :: rest) from rfl,
        psb_esc_back, ih]; rfl
    by_cases h3 : c = Char.ofNat 8
    · subst h3
      rw [show escapeChar (Char.ofNat 8) = ['\\', 'b'] from rfl,
        show (['\\', 'b'] : List Char) ++ (escapeList cs ++ '\"' :: rest)
          = '\\' :: 'b' :: (escapeList cs ++ '\"' :: rest) from rfl,
        psb_esc_b, ih]; rfl
    by_cases h4 : c = '\t'
    · subst h4
      rw [show escapeChar '\t' = ['\\', 't'] from rfl,
        show (['\\', 't'] : List Char) ++ (escapeList cs ++ '\"' :: rest)
          = '\\' :: 't' :: (escapeList cs ++ '\"' :: rest) from rfl,
        psb_esc_t, ih]; rfl
    by_cases h5 : c = '\n'
    · subst h5
      rw [show escapeChar '\n' = ['\\', 'n'] from rfl,
        show (['\\', 'n'] : List Char) ++ (escapeList cs ++ '\"' :: rest)
          = '\\' :: 'n' :: (escapeList cs ++ '\"' :: rest) from rfl,
        psb_esc_n, ih]; rfl
    by_cases h6 : c = Char.ofNat 12
    · subst h6
      rw [show escapeChar (Char.ofNat 12) = ['\\', 'f'] from rfl,
        show (['\\', 'f'] : List Char) ++ (escapeList cs ++ '\"' :: rest)
          = '\\' :: 'f' :: (escapeList cs ++ '\"' :: rest) from rfl,
        psb_esc_f, ih]; rfl
    by_cases h7 : c = '\r'
    · subst h7
      rw [show escapeChar '\r' = ['\\', 'r'] from rfl,
        show (['\\', 'r'] : List Char) ++ (escapeList cs ++ '\"' :: rest)
          = '\\' :: 'r' :: (escapeList cs ++ '\"' :: rest) from rfl,
        psb_esc_r, ih]; rfl
    by_cases h8 : c.toNat < 32
    · have hesc : escapeChar c
          = ['\\', 'u', '0', '0', hexDigitChar (c.toNat / 16), hexDigitChar (c.toNat % 16)] := by
        rw [escapeChar, if_neg h1, if_neg h2, if_neg h3, if_neg h4, if_neg h5, if_neg h6,
          if_neg h7, if_pos h8]
      rw [hesc,
        show (['\\', 'u', '0', '0', hexDigitChar (c.toNat / 16), hexDigitChar (c.toNat % 16)]
            : List Char) ++ (escapeList cs ++ '\"' :: rest)
          = '\\' :: 'u' :: '0' :: '0' :: hexDigitChar (c.toNat / 16)
            :: hexDigitChar (c.toNat % 16) :: (escapeList cs ++ '\"' :: rest) from rfl,
        psb_esc_u, parseUnicode_cons,
        show hexVal '0' = some 0 from rfl,
        hexVal_hexDigitChar (show c.toNat / 16 < 16 by omega),
        hexVal_hexDigitChar (show c.toNat % 16 < 16 by omega)]
      simp only []
      rw [if_neg (by omega), if_neg (by omega), ih]
      have hval : ((0 * 16 + 0) * 16 + c.toNat / 16) * 16 + c.toNat % 16 = c.toNat := by
        omega
      rw [hval, Char.ofNat_toNat]
      rfl
    · have hesc : escapeChar c = [c] := by
        rw [escapeChar, if_neg h1, if_neg h2, if_neg h3, if_neg h4, if_neg h5, if_neg h6,
          if_neg h7, if_neg h8]
      rw [hesc,
        show ([c] : List Char) ++ (escapeList cs ++ '\"' :: rest)
          = c :: (escapeList cs ++ '\"' :: rest) from rfl,
        psb_plain h1 h2 h8, ih]
      rfl

/-!
## Round-trip lemmas: number tokens
-/

theorem restStop_head {c : Char} {r : List Char} (h : restStop (c :: r) = true) :
    c.isDigit = false ∧ c ≠ '.' ∧ c ≠ 'e' ∧ c ≠ 'E' := by
  simp only [restStop, Bool.not_eq_true', Bool.or_eq_false_iff,
    decide_eq_false_iff_not] at h
  exact ⟨h.1.1.1, h.1.1.2, h.1.2, h.2⟩

theorem takeWhile_digits (ds r : List Char) (h : ∀ c ∈ ds, c.isDigit = true)
    (hr : restStop r = true) : (ds ++ r).takeWhile Char.isDigit = ds := by
  induction ds with
  | nil =>
    cases r with
    | nil => rfl
    | cons c cr =>
      simp [List.takeWhile_cons, (restStop_head hr).1]
  | cons d ds ih =>
    simp only [List.cons_append, List.takeWhile_cons, h d (by simp), if_true]
    simp only [ih (fun c hc => h c (by simp [hc]))]

theorem dropWhile_digits (ds r : List Char) (h : ∀ c ∈ ds, c.isDigit = true)
    (hr : restStop r = true) : (ds ++ r).dropWhile Char.isDigit = r := by
  induction ds with
  | nil =>
    cases r with
    | nil => rfl
    | cons c cr =>
      simp [List.dropWhile_cons, (restStop_head hr).1]
  | cons d ds ih =>
    simp only [List.cons_append, List.dropWhile_cons, h d (by simp), if_true]
    simp only [ih (fun c hc => h c (by simp [hc]))]

theorem parseUIntToken_natDigs (n : Nat) (rest : List Char)
    (hstop : restStop rest = true) :
    parseUIntToken (natDigs n ++ rest) = some (n, rest) := by
  have hall := natDigs_all_digits n
  have htake := takeWhile_digits (natDigs n) rest hall hstop
  have hdrop := dropWhile_digits (natDigs n) rest hall hstop
  obtain ⟨c, cs, heq, hcdig, hnolead⟩ := natDigs_shape n
  unfold parseUIntToken
  simp only [htake, hdrop]
  rw [if_neg (show ¬(natDigs n = []) by rw [heq]; simp),
    if_neg (show ¬((natDigs n).length > 1 ∧ (natDigs n).head? = some '0') by
      rw [heq]; exact hnolead),
    digitsVal_natDigs]
  cases rest with
  | nil => rfl
  | cons c2 r2 =>
    obtain ⟨-, h1, h2, h3⟩ := restStop_head hstop
    show (if c2 = '.' ∨ c2 = 'e' ∨ c2 = 'E' then none else some (n, c2 :: r2))
      = some (n, c2 :: r2)
    rw [if_neg (by tauto)]

theorem parseIntToken_cons (c : Char) (cs1 : List Char) :
    parseIntToken (c :: cs1) =
      if c = '-' then (parseUIntToken cs1).map (fun p => (-(p.1 : Int), p.2))
      else (parseUIntToken (c :: cs1)).map (fun p => ((p.1 : Int), p.2)) := rfl

theorem parseIntToken_printIntChars (i : Int) (rest : List Char)
    (hstop : restStop rest = true) :
    parseIntToken (printIntChars i ++ rest) = some (i, rest) := by
  by_cases hneg : i < 0
  · rw [printIntChars, if_pos hneg, List.cons_append, parseIntToken_cons, if_pos rfl,
      parseUIntToken_natDigs _ _ hstop]
    have hstep : (some (i.natAbs, rest)).map
        (fun p : Nat × List Char => (-(p.1 : Int), p.2))
        = some (-(i.natAbs : Int), rest) := rfl
    rw [hstep]
    have hi : -((i.natAbs : Int)) = i := by omega
    rw [hi]
  · rw [printIntChars, if_neg hneg]
    obtain ⟨c, cs, heq, hcdig, -⟩ := natDigs_shape i.toNat
    rw [heq, List.cons_append, parseIntToken_cons,
      if_neg (isDigit_facts hcdig).2.2.2.2.1, ← List.cons_append, ← heq,
      parseUIntToken_natDigs _ _ hstop]
    have hstep : (some (i.toNat, rest)).map
        (fun p : Nat × List Char => ((p.1 : Int), p.2))
        = some ((i.toNat : Int), rest) := rfl
    rw [hstep]
    have hi : ((i.toNat : Int)) = i := by omega
    rw [hi]

/-!
## Round-trip lemmas: printer and parser stepping equations
-/

theorem jsize_pos (j : Json) : 0 < jsize j := by
  cases j <;> simp [jsize]

theorem jsizeList_pos (l : List Json) : 0 < jsizeList l := by
  cases l <;> simp [jsizeList]

theorem jsizeFields_pos (l : List (String × Json)) : 0 < jsizeFields l := by
  cases l with
  | nil => simp [jsizeFields]
  | cons f fs => cases f; simp [jsizeFields]

theorem printVal_null (f ind : Nat) : printVal (f + 1) ind .null = ['n', 'u', 'l', 'l'] := rfl

theorem printVal_true (f ind : Nat) :
    printVal (f + 1) ind (.bool true) = ['t', 'r', 'u', 'e'] := rfl

theorem printVal_false (f ind : Nat) :
    printVal (f + 1) ind (.bool false) = ['f', 'a', 'l', 's', 'e'] := rfl

theorem printVal_num (f ind : Nat) (i : Int) :
    printVal (f + 1) ind (.num i) = printIntChars i := rfl

theorem printVal_str (f ind : Nat) (s : String) :
    printVal (f + 1) ind (.str s) = printStr s := rfl

theorem printVal_arr_nil (f ind : Nat) : printVal (f + 1) ind (.arr []) = ['[', ']'] := rfl

theorem printVal_arr_cons (f ind : Nat) (x : Json) (xs : List Json) :
    printVal (f + 1) ind (.arr (x :: xs))
      = '[' :: '\n' :: (indentChars (ind + 1) ++ (printVal f (ind + 1) x
        ++ (printArrTail f (ind + 1) xs ++ '\n' :: (indentChars ind ++ [']'])))) := rfl

theorem printVal_obj_nil (f ind : Nat) :
    printVal (f + 1) ind (.obj []) = [lbrace, rbrace] := rfl

theorem printVal_obj_cons (f ind : Nat) (fd : String × Json) (fs : List (String × Json)) :
    printVal (f + 1) ind (.obj (fd :: fs))
      = lbrace :: '\n' :: (indentChars (ind + 1) ++ (printField f (ind + 1) fd
        ++ (printObjTail f (ind + 1) fs ++ '\n' :: (indentChars ind ++ [rbrace])))) := rfl

theorem printField_cons (f ind : Nat) (k : String) (v : Json) :
    printField (f + 1) ind (k, v) = printStr k ++ (':' :: ' ' :: printVal f ind v) := rfl

theorem printArrTail_nil (f ind : Nat) : printArrTail (f + 1) ind [] = [] := rfl

theorem printArrTail_cons (f ind : Nat) (x : Json) (xs : List Json) :
    printArrTail (f + 1) ind (x :: xs)
      = ',' :: '\n' :: (indentChars ind ++ (printVal f ind x ++ printArrTail f ind xs)) := rfl

theorem printObjTail_nil (f ind : Nat) : printObjTail (f + 1) ind [] = [] := rfl

theorem printObjTail_cons (f ind : Nat) (fd : String × Json) (fs : List (String × Json)) :
    printObjTail (f + 1) ind (fd :: fs)
      = ',' :: '\n' :: (indentChars ind ++ (printField f ind fd ++ printObjTail f ind fs)) := rfl

theorem parseVal_succ (q : Nat) (cs : List Char) :
    parseVal (q + 1) cs = match skipWs cs with
      | [] => none
      | c :: cs1 => parseValCore q c cs1 := rfl

theorem parseField_succ (q : Nat) (cs : List Char) :
    parseField (q + 1) cs = match skipWs cs with
      | [] => none
      | c :: cs1 => parseFieldCore q c cs1 := rfl

theorem parseArrTail_succ (q : Nat) (cs : List Char) :
    parseArrTail (q + 1) cs = match skipWs cs with
      | [] => none
      | d :: ds => parseArrTailCore q d ds := rfl

theorem parseObjTail_succ (q : Nat) (cs : List Char) :
    parseObjTail (q + 1) cs = match skipWs cs with
      | [] => none
      | d :: ds => parseObjTailCore q d ds := rfl

theorem parseVal_step {cs : List Char} {c : Char} {cs1 : List Char}
    (h : skipWs cs = c :: cs1) (q : Nat) :
    parseVal (q + 1) cs = parseValCore q c cs1 := by
  rw [parseVal_succ, h]

theorem parseField_step {cs : List Char} {c : Char} {cs1 : List Char}
    (h : skipWs cs = c :: cs1) (q : Nat) :
    parseField (q + 1) cs = parseFieldCore q c cs1 := by
  rw [parseField_succ, h]

theorem parseArrTail_step {cs : List Char} {d : Char} {ds : List Char}
    (h : skipWs cs = d :: ds) (q : Nat) :
    parseArrTail (q + 1) cs = parseArrTailCore q d ds := by
  rw [parseArrTail_succ, h]

theorem parseObjTail_step {cs : List Char} {d : Char} {ds : List Char}
    (h : skipWs cs = d :: ds) (q : Nat) :
    parseObjTail (q + 1) cs = parseObjTailCore q d ds := by
  rw [parseObjTail_succ, h]

theorem parseValCore_num (q : Nat) {c : Char} (cs1 : List Char)
    (h1 : c ≠ 'n') (h2 : c ≠ 't') (h3 : c ≠ 'f') (h4 : c ≠ '\"') (h5 : c ≠ '[')
    (h6 : c ≠ lbrace) :
    parseValCore q c cs1 = (parseIntToken (c :: cs1)).map (fun p => (.num p.1, p.2)) := by
  unfold parseValCore
  rw [if_neg h1, if_neg h2, if_neg h3, if_neg h4, if_neg h5, if_neg h6]

theorem printVal_head (F ind : Nat) (j : Json) (hF : jsize j ≤ F) :
    ∃ c cs', printVal F ind j = c :: cs' ∧ isWs c = false ∧ c ≠ ']' := by
  match F with
  | 0 => exact absurd hF (by have := jsize_pos j; omega)
  | f + 1 =>
    cases j with
    | null => exact ⟨'n', _, rfl, by decide, by decide⟩
    | bool b =>
      cases b
      · exact ⟨'f', _, rfl, by decide, by decide⟩
      · exact ⟨'t', _, rfl, by decide, by decide⟩
    | num i =>
      by_cases hneg : i < 0
      · exact ⟨'-', natDigs i.natAbs,
          by rw [printVal_num, printIntChars, if_pos hneg], by decide, by decide⟩
      · obtain ⟨c, cs, heq, hdig, -⟩ := natDigs_shape i.toNat
        obtain ⟨hws, hbr, -⟩ := isDigit_facts hdig
        exact ⟨c, cs, by rw [printVal_num, printIntChars, if_neg hneg, heq], hws, hbr⟩
    | str s => exact ⟨'\"', _, rfl, by decide, by decide⟩
    | arr l =>
      cases l with
      | nil => exact ⟨'[', [']'], rfl, by decide, by decide⟩
      | cons x xs => exact ⟨'[', _, rfl, by decide, by decide⟩
    | obj l =>
      cases l with
      | nil => exact ⟨lbrace, [rbrace], rfl, by decide, by decide⟩
      | cons fd fs => exact ⟨lbrace, _, rfl, by decide, by decide⟩

theorem printField_head (F ind : Nat) (fd : String × Json) (hF : 1 ≤ F) :
    ∃ cs', printField F ind fd = '\"' :: cs' := by
  match F with
  | 0 => omega
  | f + 1 =>
    cases fd with
    | mk k v => exact ⟨_, rfl⟩

theorem printStr_eq (s : String) :
    printStr s = '\"' :: (escapeList s.data ++ ['\"']) := rfl

theorem parseValCore_quote (q : Nat) (cs1 : List Char) :
    parseValCore q '\"' cs1
      = (parseStringBody cs1).map (fun p => (.str (String.mk p.1), p.2)) := rfl

theorem parseValCore_arr (q : Nat) (cs1 : List Char) :
    parseValCore q '[' cs1 = match skipWs cs1 with
      | [] => none
      | d :: ds =>
        if d = ']' then some (.arr [], ds)
        else
          match parseVal q (d :: ds) with
          | none => none
          | some (v, rest) =>
            match parseArrTail q rest with
            | none => none
            | some (vs, rest2) => some (.arr (v :: vs), rest2) := rfl

theorem parseValCore_arr_step (q : Nat) {cs1 : List Char} {d : Char} {ds : List Char}
    (h : skipWs cs1 = d :: ds) (hne : d ≠ ']') :
    parseValCore q '[' cs1 = match parseVal q (d :: ds) with
      | none => none
      | some (v, rest) =>
        match parseArrTail q rest with
        | none => none
        | some (vs, rest2) => some (Json.arr (v :: vs), rest2) := by
  rw [parseValCore_arr, h]
  show (if d = ']' then some (Json.arr [], ds)
    else
      match parseVal q (d :: ds) with
      | none => none
      | some (v, rest) =>
        match parseArrTail q rest with
        | none => none
        | some (vs, rest2) => some (Json.arr (v :: vs), rest2)) = _
  rw [if_neg hne]

theorem parseValCore_obj (q : Nat) (cs1 : List Char) :
    parseValCore q lbrace cs1 = match skipWs cs1 with
      | [] => none
      | d :: ds =>
        if d = rbrace then some (Json.obj [], ds)
        else
          match parseField q (d :: ds) with
          | none => none
          | some (fd, rest) =>
            match parseObjTail q rest with
            | none => none
            | some (fs, rest2) => some (Json.obj (fd :: fs), rest2) := rfl

theorem parseValCore_obj_step (q : Nat) {cs1 : List Char} {d : Char} {ds : List Char}
    (h : skipWs cs1 = d :: ds) (hne : d ≠ rbrace) :
    parseValCore q lbrace cs1 = match parseField q (d :: ds) with
      | none => none
      | some (fd, rest) =>
        match parseObjTail q rest with
        | none => none
        | some (fs, rest2) => some (Json.obj (fd :: fs), rest2) := by
  rw [parseValCore_obj, h]
  show (if d = rbrace then some (Json.obj [], ds)
    else
      match parseField q (d :: ds) with
      | none => none
      | some (fd, rest) =>
        match parseObjTail q rest with
        | none => none
        | some (fs, rest2) => some (Json.obj (fd :: fs), rest2)) = _
  rw [if_neg hne]

theorem parseFieldCore_quote (q : Nat) (cs1 : List Char) :
    parseFieldCore q '\"' cs1 = match parseStringBody cs1 with
      | none => none
      | some (k, rest) =>
        match skipWs rest with
        | [] => none
        | d :: rest2 =>
          if d = ':' then
            (parseVal q rest2).map (fun p => ((String.mk k, p.1), p.2))
          else none := rfl

theorem parseVal_ws_eq {a b : List Char} (h : skipWs a = skipWs b) (q : Nat) :
    parseVal (q + 1) a = parseVal (q + 1) b := by
  rw [parseVal_succ, parseVal_succ, h]

theorem parseField_ws_eq {a b : List Char} (h : skipWs a = skipWs b) (q : Nat) :
    parseField (q + 1) a = parseField (q + 1) b := by
  rw [parseField_succ, parseField_succ, h]

theorem restStop_printArrTail (f ind : Nat) (xs : List Json) (Z : List Char) :
    restStop (printArrTail f ind xs ++ ('\n' :: Z)) = true := by
  cases f with
  | zero => cases xs <;> rfl
  | succ f2 =>
    cases xs with
    | nil => rfl
    | cons x xs => rfl

theorem restStop_printObjTail (f ind : Nat) (fs : List (String × Json)) (Z : List Char) :
    restStop (printObjTail f ind fs ++ ('\n' :: Z)) = true := by
  cases f with
  | zero => cases fs <;> rfl
  | succ f2 =>
    cases fs with
    | nil => rfl
    | cons fd fs => cases fd; rfl

theorem indentChars_length (k : Nat) : (indentChars k).length = 2 * k := by
  simp [indentChars]

/-- The core printer/parser round trip, by induction on the printer fuel:
any printed value, followed by text that cannot extend a numeric token,
parses back to exactly that value, for every parser fuel exceeding the
printed length. -/
theorem rt_core (F : Nat) :
    (∀ (j : Json) (ind : Nat) (rest : List Char) (pf : Nat),
      jsize j ≤ F → (printVal F ind j).length < pf → restStop rest = true →
      parseVal pf (printVal F ind j ++ rest) = some (j, rest))
    ∧ (∀ (fd : String × Json) (ind : Nat) (rest : List Char) (pf : Nat),
      jsize fd.2 + 1 ≤ F → (printField F ind fd).length < pf → restStop rest = true →
      parseField pf (printField F ind fd ++ rest) = some (fd, rest))
    ∧ (∀ (xs : List Json) (ind ind2 : Nat) (rest : List Char) (pf : Nat),
      jsizeList xs ≤ F → (printArrTail F ind xs).length < pf →
      parseArrTail pf (printArrTail F ind xs
        ++ ('\n' :: (indentChars ind2 ++ (']' :: rest)))) = some (xs, rest))
    ∧ (∀ (fs : List (String × Json)) (ind ind2 : Nat) (rest : List Char) (pf : Nat),
      jsizeFields fs ≤ F → (printObjTail F ind fs).length < pf →
      parseObjTail pf (printObjTail F ind fs
        ++ ('\n' :: (indentChars ind2 ++ (rbrace :: rest)))) = some (fs, rest)) := by
  induction F with
  | zero =>
    refine ⟨?_, ?_, ?_, ?_⟩
    · intro j ind rest pf hsz _ _
      exact absurd hsz (by have := jsize_pos j; omega)
    · intro fd ind rest pf hsz _ _
      exact absurd hsz (by have := jsize_pos fd.2; omega)
    · intro xs ind ind2 rest pf hsz _
      exact absurd hsz (by have := jsizeList_pos xs; omega)
    · intro fs ind ind2 rest pf hsz _
      exact absurd hsz (by have := jsizeFields_pos fs; omega)
  | succ f ih =>
    obtain ⟨ihV, ihF, ihA, ihO⟩ := ih
    refine ⟨?_, ?_, ?_, ?_⟩
    · -- values
      intro j ind rest pf hsz hlen hstop
      cases pf with
      | zero => omega
      | succ q =>
        cases j with
        | null => rfl
        | bool b => cases b <;> rfl
        | num i =>
          rw [printVal_num] at hlen ⊢
          by_cases hneg : i < 0
          · have hpi : printIntChars i = '-' :: natDigs i.natAbs := by
              show (if i < 0 then '-' :: natDigs i.natAbs else natDigs i.toNat) = _
              rw [if_pos hneg]
            rw [hpi, List.cons_append,
              parseVal_step (skipWs_cons_not (by decide) _) q,
              parseValCore_num q _ (by decide) (by decide) (by decide) (by decide)
                (by decide) (by decide),
              ← List.cons_append, ← hpi, parseIntToken_printIntChars i rest hstop]
            rfl
          · have hpi : printIntChars i = natDigs i.toNat := by
              show (if i < 0 then '-' :: natDigs i.natAbs else natDigs i.toNat) = _
              rw [if_neg hneg]
            obtain ⟨c, cs, heq, hdig, -⟩ := natDigs_shape i.toNat
            obtain ⟨hws, -, -, -, -, hn, ht, hf2, hq2, hlb, hlb2, -⟩ := isDigit_facts hdig
            rw [hpi, heq, List.cons_append,
              parseVal_step (skipWs_cons_not hws _) q,
              parseValCore_num q _ hn ht hf2 hq2 hlb hlb2,
              ← List.cons_append, ← heq, ← hpi, parseIntToken_printIntChars i rest hstop]
            rfl
        | str s =>
          rw [printVal_str, printStr_eq, List.cons_append, List.append_assoc,
            List.singleton_append,
            parseVal_step (skipWs_cons_not (by decide) _) q,
            parseValCore_quote, parseStringBody_escape]
          rfl
        | arr l =>
          cases l with
          | nil => rfl
          | cons x xs =>
            simp only [jsize, jsizeList] at hsz
            have hx : jsize x ≤ f := by omega
            have hxs : jsizeList xs ≤ f := by omega
            rw [printVal_arr_cons] at hlen ⊢
            simp only [List.length_cons, List.length_append] at hlen
            simp only [List.cons_append, List.append_assoc, List.singleton_append, List.nil_append]
            rw [parseVal_step (skipWs_cons_not (by decide) _) q]
            obtain ⟨hc, hcs, hPXeq, hcws, hcbr⟩ := printVal_head f (ind + 1) x hx
            have hskip : skipWs ('\n' :: (indentChars (ind + 1)
                ++ (printVal f (ind + 1) x ++ (printArrTail f (ind + 1) xs
                  ++ '\n' :: (indentChars ind ++ (']' :: rest))))))
                = hc :: (hcs ++ (printArrTail f (ind + 1) xs
                  ++ '\n' :: (indentChars ind ++ (']' :: rest)))) := by
              rw [skipWs_newline_indent, hPXeq, List.cons_append, skipWs_cons_not hcws]
            rw [parseValCore_arr_step q hskip hcbr, ← List.cons_append, ← hPXeq,
              ihV x (ind + 1) _ q hx (by omega)
                (restStop_printArrTail f (ind + 1) xs _)]
            show (match parseArrTail q (printArrTail f (ind + 1) xs
                ++ '\n' :: (indentChars ind ++ (']' :: rest))) with
              | none => none
              | some (vs, rest2) => some (Json.arr (x :: vs), rest2))
              = some (Json.arr (x :: xs), rest)
            rw [ihA xs (ind + 1) ind rest q hxs (by omega)]
        | obj l =>
          cases l with
          | nil => rfl
          | cons fd fs =>
            simp only [jsize, jsizeFields] at hsz
            have hfd : jsize fd.2 + 1 ≤ f := by
              obtain ⟨k, v⟩ := fd
              show jsize v + 1 ≤ f
              simp only [jsizeFields] at hsz
              have := jsizeFields_pos fs
              omega
            have hfs : jsizeFields fs ≤ f := by
              obtain ⟨k, v⟩ := fd
              simp only [jsizeFields] at hsz
              have := jsize_pos v
              omega
            have hf1 : 1 ≤ f := by
              have := jsize_pos fd.2
              omega
            rw [printVal_obj_cons] at hlen ⊢
            simp only [List.length_cons, List.length_append] at hlen
            simp only [List.cons_append, List.append_assoc, List.singleton_append, List.nil_append]
            rw [parseVal_step (skipWs_cons_not (by decide) _) q]
            obtain ⟨fcs, hPFeq⟩ := printField_head f (ind + 1) fd hf1
            have hskip : skipWs ('\n' :: (indentChars (ind + 1)
                ++ (printField f (ind + 1) fd ++ (printObjTail f (ind + 1) fs
                  ++ '\n' :: (indentChars ind ++ (rbrace :: rest))))))
                = '\"' :: (fcs ++ (printObjTail f (ind + 1) fs
                  ++ '\n' :: (indentChars ind ++ (rbrace :: rest)))) := by
              rw [skipWs_newline_indent, hPFeq, List.cons_append,
                skipWs_cons_not (by decide)]
            rw [parseValCore_obj_step q hskip (by decide), ← List.cons_append, ← hPFeq,
              ihF fd (ind + 1) _ q hfd (by omega)
                (restStop_printObjTail f (ind + 1) fs _)]
            show (match parseObjTail q (printObjTail f (ind + 1) fs
                ++ '\n' :: (indentChars ind ++ (rbrace :: rest))) with
              | none => none
              | some (fs2, rest2) => some (Json.obj (fd :: fs2), rest2))
              = some (Json.obj (fd :: fs), rest)
            rw [ihO fs (ind + 1) ind rest q hfs (by omega)]
    · -- fields
      intro fd ind rest pf hsz hlen hstop
      cases pf with
      | zero => omega
      | succ q =>
        rcases fd with ⟨k, v⟩
        simp only at hsz
        have hv : jsize v ≤ f := by omega
        rw [printField_cons] at hlen ⊢
        rw [printStr_eq] at hlen ⊢
        simp only [List.length_cons, List.length_append] at hlen
        simp only [List.cons_append, List.append_assoc, List.singleton_append, List.nil_append]
        rw [parseField_step (skipWs_cons_not (by decide) _) q,
          parseFieldCore_quote, parseStringBody_escape]
        show (if ':' = ':' then
            (parseVal q (' ' :: (printVal f ind v ++ rest))).map
              (fun p => ((String.mk k.data, p.1), p.2))
          else none) = some ((k, v), rest)
        rw [if_pos rfl]
        cases q with
        | zero => omega
        | succ q2 =>
          rw [parseVal_ws_eq (skipWs_cons_ws (by decide) _) q2,
            ihV v ind rest (q2 + 1) hv (by omega) hstop]
          rfl
    · -- array tails
      intro xs ind ind2 rest pf hsz hlen
      cases pf with
      | zero => omega
      | succ q =>
        cases xs with
        | nil =>
          rw [printArrTail_nil, List.nil_append,
            parseArrTail_step (show skipWs ('\n' :: (indentChars ind2 ++ (']' :: rest)))
                = ']' :: rest by
              rw [skipWs_newline_indent, skipWs_cons_not (by decide)]) q]
          rfl
        | cons x xs' =>
          simp only [jsizeList] at hsz
          have hx : jsize x ≤ f := by omega
          have hxs : jsizeList xs' ≤ f := by omega
          rw [printArrTail_cons] at hlen ⊢
          simp only [List.length_cons, List.length_append] at hlen
          simp only [List.cons_append, List.append_assoc]
          rw [parseArrTail_step (skipWs_cons_not (by decide) _) q]
          show (match parseVal q ('\n' :: (indentChars ind
              ++ (printVal f ind x ++ (printArrTail f ind xs'
                ++ '\n' :: (indentChars ind2 ++ (']' :: rest)))))) with
            | none => none
            | some (v, rest') =>
              (parseArrTail q rest').map (fun p => (v :: p.1, p.2)))
            = some (x :: xs', rest)
          cases q with
          | zero => omega
          | succ q2 =>
            rw [parseVal_ws_eq (skipWs_newline_indent _ _) q2,
              ihV x ind _ (q2 + 1) hx (by omega)
                (restStop_printArrTail f ind xs' _)]
            show (parseArrTail (q2 + 1) (printArrTail f ind xs'
                ++ '\n' :: (indentChars ind2 ++ (']' :: rest)))).map
                (fun p => (x :: p.1, p.2))
              = some (x :: xs', rest)
            rw [ihA xs' ind ind2 rest (q2 + 1) hxs (by omega)]
            rfl
    · -- object tails
      intro fs ind ind2 rest pf hsz hlen
      cases pf with
      | zero => omega
      | succ q =>
        cases fs with
        | nil =>
          rw [printObjTail_nil, List.nil_append,
            parseObjTail_step (show skipWs ('\n' :: (indentChars ind2 ++ (rbrace :: rest)))
                = rbrace :: rest by
              rw [skipWs_newline_indent, skipWs_cons_not (by decide)]) q]
          show (if rbrace = rbrace then some ([], rest)
            else if rbrace = ',' then
              match parseField q rest with
              | none => none
              | some (fd, rest') =>
                (parseObjTail q rest').map (fun p => (fd :: p.1, p.2))
            else none) = some ([], rest)
          rw [if_pos rfl]
        | cons fd fs' =>
          have hfd : jsize fd.2 + 1 ≤ f := by
            obtain ⟨k, v⟩ := fd
            show jsize v + 1 ≤ f
            simp only [jsizeFields] at hsz
            have := jsizeFields_pos fs'
            omega
          have hfs : jsizeFields fs' ≤ f := by
            obtain ⟨k, v⟩ := fd
            simp only [jsizeFields] at hsz
            have := jsize_pos v
            omega
          rw [printObjTail_cons] at hlen ⊢
          simp only [List.length_cons, List.length_append] at hlen
          simp only [List.cons_append, List.append_assoc]
          rw [parseObjTail_step (skipWs_cons_not (by decide) _) q]
          show (match parseField q ('\n' :: (indentChars ind
              ++ (printField f ind fd ++ (printObjTail f ind fs'
                ++ '\n' :: (indentChars ind2 ++ (rbrace :: rest)))))) with
            | none => none
            | some (fd', rest') =>
              (parseObjTail q rest').map (fun p => (fd' :: p.1, p.2)))
            = some (fd :: fs', rest)
          cases q with
          | zero => omega
          | succ q2 =>
            rw [parseField_ws_eq (skipWs_newline_indent _ _) q2,
              ihF fd ind _ (q2 + 1) hfd (by omega)
                (restStop_printObjTail f ind fs' _)]
            show (parseObjTail (q2 + 1) (printObjTail f ind fs'
                ++ '\n' :: (indentChars ind2 ++ (rbrace :: rest)))).map
                (fun p => (fd :: p.1, p.2))
              = some (fd :: fs', rest)
            rw [ihO fs' ind ind2 rest (q2 + 1) hfs (by omega)]
            rfl

/-!
## Round-trip lemmas: manifest encoding and decoding
-/

theorem parseVal_print (j : Json) :
    parseVal ((printVal (jsize j) 0 j).length + 1) (printVal (jsize j) 0 j)
      = some (j, []) := by
  have h := (rt_core (jsize j)).1 j 0 [] ((printVal (jsize j) 0 j).length + 1)
    (le_refl _) (by omega) rfl
  rwa [List.append_nil] at h

theorem getField_cons_hit (k : String) (v : Json) (fs : List (String × Json)) :
    getField ((k, v) :: fs) k = some v := by
  simp [getField, List.find?_cons]

theorem getField_cons_miss {k' k : String} (h : k' ≠ k) (v : Json)
    (fs : List (String × Json)) :
    getField ((k', v) :: fs) k = getField fs k := by
  simp [getField, List.find?_cons, h]

theorem decodeString_str (s : String) : decodeString (.str s) = some s := rfl

theorem decodeStringOpt_null : decodeStringOpt .null = some none := rfl

theorem decodeStringOpt_str (s : String) : decodeStringOpt (.str s) = some (some s) := rfl

theorem decodeList_str (l : List String) :
    decodeList decodeString (l.map Json.str) = some l := by
  induction l with
  | nil => rfl
  | cons s l ih =>
    simp only [List.map_cons, decodeList, decodeString, ih, Option.map_some']

theorem decodeEntries_strMap (l : List (String × String)) :
    decodeEntries decodeString (l.map (fun p => (p.1, Json.str p.2))) = some l := by
  induction l with
  | nil => rfl
  | cons p l ih =>
    obtain ⟨k, v⟩ := p
    simp only [List.map_cons, decodeEntries, decodeString, ih, Option.map_some']

theorem inputSchema_decode (s : InputSchema) :
    InputSchema.fromJson (InputSchema.toJson s) = some s.reload := by
  obtain ⟨t2, d2, r2, df⟩ := s
  cases df with
  | none => rfl
  | some v => cases v <;> rfl

theorem outputSchema_decode (s : OutputSchema) :
    OutputSchema.fromJson (OutputSchema.toJson s) = some s := by
  obtain ⟨t2, d2⟩ := s
  rfl

theorem decodeEntries_inputs (l : List (String × InputSchema)) :
    decodeEntries InputSchema.fromJson (l.map (fun p => (p.1, p.2.toJson)))
      = some (l.map (fun p => (p.1, p.2.reload))) := by
  induction l with
  | nil => rfl
  | cons p l ih =>
    obtain ⟨k, v⟩ := p
    simp only [List.map_cons, decodeEntries, inputSchema_decode, ih, Option.map_some']

theorem decodeEntries_outputs (l : List (String × OutputSchema)) :
    decodeEntries OutputSchema.fromJson (l.map (fun p => (p.1, p.2.toJson))) = some l := by
  induction l with
  | nil => rfl
  | cons p l ih =>
    obtain ⟨k, v⟩ := p
    simp only [List.map_cons, decodeEntries, outputSchema_decode, ih, Option.map_some']

theorem manifest_decode (m : Manifest) (hT : m.timeout_sec < 2 ^ 64) :
    Manifest.fromJson (Manifest.toJson m) = some m.reload := by
  obtain ⟨nm, vr, ds, lg, ep, caps, schema, t, reqs, inputs, outputs⟩ := m
  have hu : decodeU64 (.num (t : Int)) = some t := by
    show (if (t : Int) < 0 ∨ (2 : Int) ^ 64 ≤ (t : Int) then none
      else some ((t : Int)).toNat) = some t
    rw [if_neg (by push_cast at hT ⊢; omega)]
    simp
  cases schema with
  | none =>
    simp [Manifest.toJson, Manifest.fromJson, getField_cons_hit, getField_cons_miss,
      decodeList_str, decodeEntries_strMap, decodeEntries_inputs, decodeEntries_outputs,
      hu, decodeString_str, decodeStringOpt_null, decodeStringOpt_str,
      Manifest.reload, strMapToJson]
  | some sv =>
    simp [Manifest.toJson, Manifest.fromJson, getField_cons_hit, getField_cons_miss,
      decodeList_str, decodeEntries_strMap, decodeEntries_inputs, decodeEntries_outputs,
      hu, decodeString_str, decodeStringOpt_null, decodeStringOpt_str,
      Manifest.reload, strMapToJson]

/-- Saving and then loading returns the reloaded manifest: equal to the
original except that any `Some(Value::Null)` input default has collapsed to
`None` (serde `Option` deserialization of `null`).  The `u64` bound reflects
the Rust type of `timeout_sec`. -/
theorem load_save_characterization (m : Manifest) (p : String) (fs : FileSystem)
    (hT : m.timeout_sec < 2 ^ 64) :
    load_manifest p (save_manifest m p fs) = .ok m.reload := by
  have hread : fsRead (fsWrite fs p (to_string_pretty (Manifest.toJson m))) p
      = some (to_string_pretty (Manifest.toJson m)) := by
    simp [fsRead, fsWrite, List.find?_cons]
  have hparse : parseVal ((to_string_pretty (Manifest.toJson m)).length + 1)
      (to_string_pretty (Manifest.toJson m)).data = some (Manifest.toJson m, []) := by
    show parseVal ((printVal (jsize (Manifest.toJson m)) 0 (Manifest.toJson m)).length + 1)
      (printVal (jsize (Manifest.toJson m)) 0 (Manifest.toJson m)) = _
    exact parseVal_print _
  have hfs2 : fromStrManifest (to_string_pretty (Manifest.toJson m)) = .ok m.reload := by
    simp only [fromStrManifest, hparse]
    rw [if_pos (show skipWs ([] : List Char) = [] from rfl), manifest_decode m hT]
  simp only [load_manifest, save_manifest, hread, hfs2]

theorem inputSchema_reload_eq_self {s : InputSchema} (h : s.noNullDefault = true) :
    s.reload = s := by
  obtain ⟨t2, d2, r2, df⟩ := s
  cases df with
  | none => rfl
  | some v =>
    cases v with
    | null => exact absurd (show false = true from h) (by decide)
    | bool b => rfl
    | num n => rfl
    | str s2 => rfl
    | arr l => rfl
    | obj fs2 => rfl

theorem manifest_reload_eq_self {m : Manifest} (h : m.noNullDefault = true) :
    m.reload = m := by
  obtain ⟨nm, vr, ds, lg, ep, caps, schema, t, reqs, inputs, outputs⟩ := m
  have hin : ∀ (l : List (String × InputSchema)),
      l.all (fun p => p.2.noNullDefault) = true →
      l.map (fun p => (p.1, p.2.reload)) = l := by
    intro l
    induction l with
    | nil => intro _; rfl
    | cons p l ih =>
      intro hall
      obtain ⟨k, v⟩ := p
      simp only [List.all_cons, Bool.and_eq_true] at hall
      simp only [List.map_cons, inputSchema_reload_eq_self hall.1, ih hall.2]
  simp only [Manifest.reload, Manifest.noNullDefault] at h ⊢
  rw [hin inputs h]

/-- Claim C6, counterexample: the round trip is not the identity for every
manifest.  For a manifest whose input declares the JSON `null` value as its
default (`default = Some(Value::Null)`), `serde_json` serializes the default
as `null`, and deserializing `null` into `Option<serde_json::Value>` yields
`None`, so `load_manifest` after `save_manifest` returns a manifest whose
default differs from the saved one. -/
theorem manifest_roundtrip_fails_on_null_default_cex :
    load_manifest "manifests/null_default.json"
        (save_manifest nullDefaultManifest "manifests/null_default.json" [])
      ≠ .ok nullDefaultManifest := by
  intro hload
  rw [load_save_characterization nullDefaultManifest _ _ (by decide)] at hload
  have heq := Except.ok.inj hload
  have h2 := congrArg
    (fun mm : Manifest => mm.inputs.map (fun q => q.2.default.isSome)) heq
  exact absurd h2 (by decide)

/-- Claim C6 as amended: for every manifest `m` in which no input schema
declares the JSON `null` value as its default (and whose `timeout_sec` is in
the `u64` range, as the Rust field type guarantees), saving to any path —
overwriting any existing file — and loading that path back succeeds and
returns a manifest equal to `m` field for field.  A default of
`Some(Value::Null)` is the one exception: serde deserializes the serialized
`null` back as `None`, so such manifests reload unequal. -/
theorem save_then_load_returns_equal_manifest (m : Manifest) (p : String)
    (fs : FileSystem) (hnull : m.noNullDefault = true)
    (hT : m.timeout_sec < 2 ^ 64) :
    load_manifest p (save_manifest m p fs) = .ok m := by
  rw [load_save_characterization m p fs hT, manifest_reload_eq_self hnull]

theorem save_then_load_returns_equal_manifest_witness :
    generate_codexify_manifest.noNullDefault = true
    ∧ generate_codexify_manifest.timeout_sec < 2 ^ 64
    ∧ load_manifest "manifests/codexify.json"
        (save_manifest generate_codexify_manifest "manifests/codexify.json" [])
      = .ok generate_codexify_manifest :=
  ⟨by decide, by decide,
    save_then_load_returns_equal_manifest generate_codexify_manifest
      "manifests/codexify.json" [] (by decide) (by decide)⟩

end CliBridge
